import Mathlib

/-!
# Triton: the conditional-jump-on-not-zero semantic builder

A shallow embedding of `src/ir/builders/JnzIRBuilder.cpp` and of the register
identity model declared in `src/libtriton/includes/register.hpp`.

The builder's four variants (`imm`, `reg`, `mem`, `none`) and `process` are
translated from the source file line by line.  The collaborators that are not
part of the sources (`smt2lib`, `AnalysisProcessor`, `Inst`, `SymbolicElement`,
`OneOperandTemplate`, `BaseIRBuilder`, `Registers.h`) are modelled from the
specification; each such definition says so in its comment.

Addresses, operand values and ids are natural numbers.  The statements hold for
every natural number, hence for every 64-bit value of the source types; the id
counter is the "monotonically increasing" integer of the specification and does
not wrap.

The expression of an element is text.  Its meaning is given through `Formula`: a
reader of the text grammar (`parseFormula`), proved to read back every rendered
formula, an evaluator and a sort checker.

C++ calls mutate the processor and the instruction in place and may raise.  A
call is therefore a function from the state before the call to a pair (or
triple) of the `Except` result and the state after the call: the state a call
leaves behind when it raises is kept, exactly as an exception leaves the
objects it was thrown past.
-/

namespace Triton

/-! ## Identifier space -/

/-- Modelled from the spec: section 6, "a fixed enumeration of reserved IDs (e.g. the
zero-flag ID, the instruction-pointer ID) plus the architecture's general register
IDs".  `Registers.h` is not part of the sources; the two enumerators the builder
names are kept, every other register or flag is `general n`. -/
inductive RegID where
  | ID_RIP : RegID
  | ID_ZF : RegID
  | general (n : Nat) : RegID
  deriving DecidableEq, Repr

export RegID (ID_RIP ID_ZF)

/-- Modelled from the spec: section 6, "UNSET is a reserved sentinel ID meaning no
symbolic definition yet".  The header defining it is not part of the sources; the
sentinel is the all-ones value of the 64-bit id type read at line 20 of the
builder.  No general theorem below depends on the numeric value. -/
def UNSET : Nat := 2 ^ 64 - 1

/-- Modelled from the spec: the architecture-fixed register width in bits passed
to `bv` for the two branch targets (section 8 renders them with width 64).  The
header defining `REG_SIZE_BIT` is not part of the sources. -/
def REG_SIZE_BIT : Nat := 64

/-! ## Expression language builder (`smt2lib`) -/

namespace smt2lib

/-- Modelled from the spec: `SMT2Lib.h` is not part of the sources.  Section 6,
"Bit-vector constant: (_ bv<decimal value> <decimal width>)". -/
def bv (value size : Nat) : String :=
  "(_ bv" ++ Nat.repr value ++ " " ++ Nat.repr size ++ ")"

/-- Modelled from the spec: `SMT2Lib.h` is not part of the sources.  Section 6,
"Equality: (= <expr> <expr>)". -/
def equal (op1 op2 : String) : String :=
  "(= " ++ op1 ++ " " ++ op2 ++ ")"

/-- Modelled from the spec: `SMT2Lib.h` is not part of the sources.  Section 6,
"Conditional select: (ite <bool-expr> <expr> <expr>)". -/
def ite (cond thenExpr elseExpr : String) : String :=
  "(ite " ++ cond ++ " " ++ thenExpr ++ " " ++ elseExpr ++ ")"

/-- Modelled from the spec: `SMT2Lib.h` is not part of the sources.  Section 6,
"Boolean false/true (1-bit): (_ bv0 1) / (_ bv1 1)". -/
def bvfalse : String := "(_ bv0 1)"

end smt2lib

/-! ## Failures -/

/-- Modelled from the spec: section 7, construction exceptions are "any failure
while building an expression, allocating an element, or appending state".  These
are the four calls of the builder that allocate an element or append state. -/
inductive Site where
  | createRegSE : Site
  | addPathConstraint : Site
  | addElement : Site
  | incNumberOfExpressions : Site
  deriving DecidableEq, Repr

/-- Modelled from the spec: section 7 names two failure classes, the
unsupported-form fatal stop, "surfacing the disassembly text for diagnosis", and
construction exceptions.  `setup` is the failure of `checkSetup`, which runs
before either. -/
inductive Failure where
  | fatalStop (disas : String) : Failure
  | construction (site : Site) : Failure
  | setup : Failure
  deriving DecidableEq, Repr

/-- Modelled from the spec: section 7, construction exceptions.  Whether a given
call raises is not a function of the processor state (it is an allocation
failure of the host), so it is an input of the model: `raises s = true` means
the call at site `s` raises instead of doing its work. -/
structure Faults where
  raises : Site → Bool

/-- The environment in which no call raises a construction exception. -/
def Faults.never : Faults := ⟨fun _ => false⟩

/-- The environment in which exactly the call at site `s` raises. -/
def Faults.only (s : Site) : Faults := ⟨fun t => decide (t = s)⟩

/-! ## Symbolic element and instruction container -/

/-- Modelled from the spec: section 3, SymbolicElement, "id, expression (rendered
formula), definedLocationName".  `SymbolicElement.h` is not part of the sources. -/
structure SymbolicElement where
  id : Nat
  expression : String
  definedLocationName : String
  deriving DecidableEq, Repr

/-- Modelled from the spec: the id of an element, read by `se->getID()` at line 40;
`SymbolicElement.h` is not part of the sources. -/
def SymbolicElement.getID (se : SymbolicElement) : Nat := se.id

/-- Modelled from the spec: section 3, Instruction, "threadId, address,
disassemblyText, elements: ordered sequence of SymbolicElement". -/
structure Inst where
  threadId : Nat
  address : Nat
  disassemblyText : String
  elements : List SymbolicElement
  deriving DecidableEq, Repr

/-- Modelled from the spec: section 4.5 step 5, "Attach the element to the
Instruction Container"; the elements are an ordered sequence, so the new one goes
last.  A raising call leaves the container as it was. -/
def Inst.addElement (f : Faults) (inst : Inst) (se : SymbolicElement) :
    Except Failure Unit × Inst :=
  if f.raises Site.addElement then (.error (.construction .addElement), inst)
  else (.ok (), { inst with elements := inst.elements ++ [se] })

/-- Modelled from the spec: the length of the ordered sequence of elements of
section 3, read by `inst->numberOfElements()` at line 69. -/
def Inst.numberOfElements (inst : Inst) : Nat := inst.elements.length

/-! ## Symbolic state processor -/

/-- Modelled from the spec: section 3, SymbolicStateProcessor, "regToSymbolicId,
flagConcreteValues, nextId, pathConstraints, expressionCount", per execution
thread.  `AnalysisProcessor` is not part of the sources. -/
structure AnalysisProcessor where
  threadId : Nat
  regToSymbolicId : RegID → Nat
  flagConcreteValues : RegID → Nat
  nextId : Nat
  pathConstraints : List Nat
  expressionCount : Nat

namespace AnalysisProcessor

/-- Modelled from the spec: section 3, the processor is "per execution thread";
this is the thread id read by `ap.getThreadID()` at line 65. -/
def getThreadID (ap : AnalysisProcessor) : Nat := ap.threadId

/-- Modelled from the spec: section 4.3, "getRegSymbolicId(reg) -> id | UNSET:
current defining element for reg"; reads never mutate state. -/
def getRegSymbolicID (ap : AnalysisProcessor) (reg : RegID) : Nat :=
  ap.regToSymbolicId reg

/-- Modelled from the spec: section 4.3, "getFlagValue(flag) -> bit: concrete
shadow lookup". -/
def getFlagValue (ap : AnalysisProcessor) (flag : RegID) : Nat :=
  ap.flagConcreteValues flag

/-- Modelled from the spec: section 4.3, "createRegSe(expression, reg, name):
allocates the next global ID, builds the element, updates regToSymbolicId[reg.id]
to the new ID (overwriting the prior mapping), returns the element".  A raising
call allocates nothing and leaves the processor as it was. -/
def createRegSE (f : Faults) (ap : AnalysisProcessor) (expr : String) (reg : RegID)
    (name : String) : Except Failure SymbolicElement × AnalysisProcessor :=
  if f.raises Site.createRegSE then (.error (.construction .createRegSE), ap)
  else
    let se : SymbolicElement := ⟨ap.nextId, expr, name⟩
    (.ok se, { ap with
                nextId := ap.nextId + 1
                regToSymbolicId := Function.update ap.regToSymbolicId reg se.id })

/-- Modelled from the spec: section 4.3, "addPathConstraint(id): appends to the
path-constraint log ... no deduplication, no validation".  A raising call leaves
the log as it was. -/
def addPathConstraint (f : Faults) (ap : AnalysisProcessor) (id : Nat) :
    Except Failure Unit × AnalysisProcessor :=
  if f.raises Site.addPathConstraint then (.error (.construction .addPathConstraint), ap)
  else (.ok (), { ap with pathConstraints := ap.pathConstraints ++ [id] })

/-- Modelled from the spec: section 4.3, "incNumberOfExpressions(n): statistics
only; no semantic effect".  A raising call leaves the counter as it was. -/
def incNumberOfExpressions (f : Faults) (ap : AnalysisProcessor) (n : Nat) :
    Except Failure Unit × AnalysisProcessor :=
  if f.raises Site.incNumberOfExpressions then
    (.error (.construction .incNumberOfExpressions), ap)
  else (.ok (), { ap with expressionCount := ap.expressionCount + n })

end AnalysisProcessor

/-! ## Operands and the builder -/

/-- Modelled from the spec: section 4.4, "the decoded operand's kind: none,
register, memory, immediate". -/
inductive OperandKind where
  | NONE : OperandKind
  | REG : OperandKind
  | MEM : OperandKind
  | IMM : OperandKind
  deriving DecidableEq, Repr

/-- Modelled from the spec: a decoded operand, with the kind the dispatch of
section 4.4 is keyed on and the value read by `getValue()` at line 19.  The
operand class is not part of the sources. -/
structure Operand where
  kind : OperandKind
  value : Nat
  deriving DecidableEq, Repr

/-- Modelled from the spec: the value of an operand, for an immediate operand the
"targetImmediate" of section 4.5, read by `getValue()` at line 19. -/
def Operand.getValue (op : Operand) : Nat := op.value

/-- The members the source of the JNZ builder reads: `address`, `disas`,
`nextAddress`, `operands` (lines 11, 19, 34, 48, 65, 68).  Their declaration in
`BaseIRBuilder` is not part of the sources.  `needSetup` stands for the
precondition tested by `checkSetup` (line 63). -/
structure JnzIRBuilder where
  address : Nat
  disas : String
  nextAddress : Nat
  operands : List Operand
  needSetup : Bool
  deriving DecidableEq, Repr

/-- Modelled from the spec: section 4.5, the fatal stop "unconditionally signals
that translation cannot proceed, carrying the disassembly text for diagnostics".
`OneOperandTemplate` is not part of the sources. -/
def OneOperandTemplate.stop {α : Type} (disas : String) : Except Failure α :=
  .error (.fatalStop disas)

namespace JnzIRBuilder

/-- The formula for the zero flag, lines 20 and 23 to 26: the reference `#id` when the
flag has a symbolic definition, else its concrete bit as a 1-bit constant. -/
def zfExpr (ap : AnalysisProcessor) : String :=
  let symZF := ap.getRegSymbolicID ID_ZF
  if symZF ≠ UNSET then "#" ++ Nat.repr symZF
  else smt2lib.bv (ap.getFlagValue ID_ZF) 1

/-- The final expression, lines 29 to 34, for the immediate `imm`. -/
def finalExpr (b : JnzIRBuilder) (ap : AnalysisProcessor) (imm : Nat) : String :=
  smt2lib.ite
    (smt2lib.equal (zfExpr ap) smt2lib.bvfalse)
    (smt2lib.bv imm REG_SIZE_BIT)
    (smt2lib.bv b.nextAddress REG_SIZE_BIT)

/-- `JnzIRBuilder::imm`, lines 16 to 44.  `operands[0]` is read without a bounds
check in the source; on an empty operand vector that read is undefined, the model
reads the value 0 there, and every theorem about `imm` is stated for a builder
whose operand vector has a first operand. -/
def imm (b : JnzIRBuilder) (f : Faults) (ap : AnalysisProcessor) (inst : Inst) :
    Except Failure Unit × AnalysisProcessor × Inst :=
  let imm := (b.operands.headD ⟨.IMM, 0⟩).getValue
  let expr := finalExpr b ap imm
  match ap.createRegSE f expr ID_RIP "RIP" with
  | (.error e, ap1) => (.error e, ap1, inst)
  | (.ok se, ap1) =>
    match ap1.addPathConstraint f se.getID with
    | (.error e, ap2) => (.error e, ap2, inst)
    | (.ok (), ap2) =>
      match inst.addElement f se with
      | (.error e, inst1) => (.error e, ap2, inst1)
      | (.ok (), inst1) => (.ok (), ap2, inst1)

/-- `JnzIRBuilder::reg`, lines 47 to 49. -/
def reg (b : JnzIRBuilder) (ap : AnalysisProcessor) (inst : Inst) :
    Except Failure Unit × AnalysisProcessor × Inst :=
  (OneOperandTemplate.stop b.disas, ap, inst)

/-- `JnzIRBuilder::mem`, lines 52 to 54. -/
def mem (b : JnzIRBuilder) (ap : AnalysisProcessor) (inst : Inst) :
    Except Failure Unit × AnalysisProcessor × Inst :=
  (OneOperandTemplate.stop b.disas, ap, inst)

/-- `JnzIRBuilder::none`, lines 57 to 59. -/
def none (b : JnzIRBuilder) (ap : AnalysisProcessor) (inst : Inst) :
    Except Failure Unit × AnalysisProcessor × Inst :=
  (OneOperandTemplate.stop b.disas, ap, inst)

/-- Modelled from the spec: section 4.4, the dispatch is "keyed on the decoded
operand's kind" and the builder has one operand: `NONE` for an instruction
without operands, else the kind of its first operand. -/
def operandKind (operands : List Operand) : OperandKind :=
  match operands with
  | [] => .NONE
  | op :: _ => op.kind

/-- Modelled from the spec: section 4.4, "a fixed four-way dispatch keyed on the
decoded operand's kind ... route to the matching variant method on the active
builder; purely structural".  `OneOperandTemplate` is not part of the sources. -/
def templateMethod (b : JnzIRBuilder) (f : Faults) (ap : AnalysisProcessor) (inst : Inst)
    (operands : List Operand) (_insName : String) :
    Except Failure Unit × AnalysisProcessor × Inst :=
  match operandKind operands with
  | .NONE => b.none ap inst
  | .REG => b.reg ap inst
  | .MEM => b.mem ap inst
  | .IMM => b.imm f ap inst

/-- Modelled from the spec: `BaseIRBuilder::checkSetup` (line 63) is not part of the
sources; section 6 only says that `process` ends in a fatal stop or an exception
on invalid input.  The call is `const` and receives no processor, so it can only
pass or raise; which of the two is the builder member `needSetup`. -/
def checkSetup (b : JnzIRBuilder) : Except Failure Unit :=
  if b.needSetup then .error .setup else .ok ()

/-- `JnzIRBuilder::process`, lines 62 to 77.  The `catch` block deletes the
instruction and rethrows: on every failing path no instruction is returned and
the processor is left as the failing call left it. -/
def process (b : JnzIRBuilder) (f : Faults) (ap : AnalysisProcessor) :
    Except Failure Inst × AnalysisProcessor :=
  match b.checkSetup with
  | .error e => (.error e, ap)
  | .ok () =>
    let inst : Inst := ⟨ap.getThreadID, b.address, b.disas, []⟩
    match b.templateMethod f ap inst b.operands "JNZ" with
    | (.error e, ap1, _) => (.error e, ap1)
    | (.ok (), ap1, inst1) =>
      match ap1.incNumberOfExpressions f inst1.numberOfElements with
      | (.error e, ap2) => (.error e, ap2)
      | (.ok (), ap2) => (.ok inst1, ap2)

end JnzIRBuilder

/-! ## Several processors sharing the id counter -/

/-- Modelled from the spec: section 5, each thread owns "its own Symbolic State
Processor instance ... except for the monotonic SymbolicElement ID counter, which
is shared process-wide".  `counter` is the shared counter; the `nextId` field of a
stored thread state is not used, the counter is attached when the thread runs. -/
structure System where
  counter : Nat
  threads : List AnalysisProcessor

/-- The processor of a thread as it runs: its own state, allocating from the
shared counter. -/
def System.attach (sys : System) (ap : AnalysisProcessor) : AnalysisProcessor :=
  { ap with nextId := sys.counter }

/-- One JNZ translation on thread `t` (calls run one after another).  Returns the
ids of the elements of the returned instruction (none when the translation
failed or the thread does not exist) and the system after the call. -/
def System.translate (sys : System) (t : Nat) (b : JnzIRBuilder) (f : Faults) :
    List Nat × System :=
  match sys.threads[t]? with
  | none => ([], sys)
  | some ap =>
    let r := b.process f (sys.attach ap)
    let ids := match r.1 with
      | .ok inst => inst.elements.map SymbolicElement.getID
      | .error _ => []
    (ids, ⟨r.2.nextId, sys.threads.set t r.2⟩)

/-- A finite sequence of translations, each on some thread; returns the ids of
the created elements in creation order and the final system. -/
def System.run (sys : System) : List (Nat × JnzIRBuilder × Faults) → List Nat × System
  | [] => ([], sys)
  | (t, b, f) :: rest =>
    let r := sys.translate t b f
    let r2 := System.run r.2 rest
    (r.1 ++ r2.1, r2.2)

/-- An id is present in the system when some thread maps a register to it (the
sentinel `UNSET` is not an id) or has it in its path-constraint log. -/
def System.present (sys : System) (id : Nat) : Prop :=
  ∃ ap ∈ sys.threads,
    (∃ r, ap.getRegSymbolicID r ≠ UNSET ∧ ap.getRegSymbolicID r = id) ∨ id ∈ ap.pathConstraints

/-- Every id present in the system was allocated: it is below the shared counter. -/
def System.allocated (sys : System) : Prop :=
  ∀ id, sys.present id → id < sys.counter

/-- A fresh session of `n` threads: nothing symbolized, empty logs, counter 0. -/
def System.fresh (n : Nat) : System :=
  ⟨0, (List.range n).map (fun t => ⟨t, fun _ => UNSET, fun _ => 0, 0, [], 0⟩)⟩

/-! ## Reading a decimal numeral -/

/-- The number a string of decimal digits denotes, most significant digit first. -/
def decimalValue (cs : List Char) : Nat :=
  cs.foldl (fun acc c => 10 * acc + (c.toNat - 48)) 0

/-- The characters 0 to 9. -/
def isDecimalDigit (c : Char) : Bool := decide (48 ≤ c.toNat ∧ c.toNat ≤ 57)

/-! ## Scenario data -/

/-- A processor with nothing symbolized, every concrete flag 0 and an empty log. -/
def freshProcessor (thread : Nat) : AnalysisProcessor :=
  ⟨thread, fun _ => UNSET, fun _ => 0, 0, [], 0⟩

/-- The instruction of the section 8 scenario: `jnz 0x401010` followed by the
instruction at `0x400ffa`. -/
def scenarioBuilder : JnzIRBuilder :=
  ⟨0x400ff8, "jnz 0x401010", 0x400ffa, [⟨.IMM, 0x401010⟩], false⟩

/-- An empty instruction container. -/
def emptyInst : Inst := ⟨0, 0x400ff8, "jnz 0x401010", []⟩

/-! ## Outcome of a successful immediate variant -/

/-- The processor a successful immediate variant leaves behind. -/
def immProcessor (ap : AnalysisProcessor) : AnalysisProcessor :=
  { ap with
      nextId := ap.nextId + 1
      regToSymbolicId := Function.update ap.regToSymbolicId ID_RIP ap.nextId
      pathConstraints := ap.pathConstraints ++ [ap.nextId] }

/-- The element a successful immediate variant creates. -/
def immElement (b : JnzIRBuilder) (ap : AnalysisProcessor) : SymbolicElement :=
  ⟨ap.nextId, JnzIRBuilder.finalExpr b ap (b.operands.headD ⟨.IMM, 0⟩).getValue, "RIP"⟩

/-! ## Register identity model -/

/-- The data members of `triton::arch::Register` (register.hpp, lines 41 to 55):
name, id, parent id, concrete value and trust flag.  The 32-bit ids and the
512-bit concrete value are natural numbers. -/
structure Register where
  name : String
  id : Nat
  parent : Nat
  concreteValue : Nat
  trusted : Bool
  deriving DecidableEq, Repr

namespace Register

/-- The accessor `getId` declared at line 110 of register.hpp. -/
def getId (reg : Register) : Nat := reg.id

/-- Modelled from the spec: section 4.1, "equality and ordering (by id)".  The
operator is declared at line 141 of register.hpp; its body is not part of the
sources. -/
def operatorEq (reg1 reg2 : Register) : Bool := decide (reg1.getId = reg2.getId)

/-- Modelled from the spec: section 4.1, "equality and ordering (by id)".  The
operator is declared at line 144 of register.hpp; its body is not part of the
sources. -/
def operatorNe (reg1 reg2 : Register) : Bool := !(operatorEq reg1 reg2)

/-- Modelled from the spec: section 4.1, "equality and ordering (by id) so registers
can key ordered containers".  The operator is declared at line 147 of
register.hpp ("needed for std::map"); its body is not part of the sources. -/
def operatorLt (reg1 reg2 : Register) : Bool := decide (reg1.getId < reg2.getId)

end Register

/-! ## Formulas: reading and evaluating the expression text -/

/-- The formulas of the text grammar of section 6 of the spec: bit-vector
constant, equality, conditional select and symbolic reference. -/
inductive Formula where
  | bv (value size : Nat) : Formula
  | equal (a b : Formula) : Formula
  | ite (cond thenExpr elseExpr : Formula) : Formula
  | ref (id : Nat) : Formula
  deriving DecidableEq, Repr

namespace Formula

/-- The text of a formula, written with the functions of `smt2lib`; a reference is
written as at line 24 of the builder. -/
def render : Formula → String
  | bv value size => smt2lib.bv value size
  | equal a b => smt2lib.equal a.render b.render
  | ite c t e => smt2lib.ite c.render t.render e.render
  | ref id => "#" ++ Nat.repr id

/-- The nesting depth of a formula. -/
def depth : Formula → Nat
  | bv _ _ => 1
  | equal a b => max a.depth b.depth + 1
  | ite c t e => max c.depth (max t.depth e.depth) + 1
  | ref _ => 1

/-- The symbolic references `#k` that occur in a formula. -/
def refs : Formula → List Nat
  | bv _ _ => []
  | equal a b => a.refs ++ b.refs
  | ite c t e => c.refs ++ t.refs ++ e.refs
  | ref id => [id]

end Formula

/-- Removes the literal text `lit` from the front of the input, or fails. -/
def dropLiteral : List Char → List Char → Option (List Char)
  | [], cs => some cs
  | _ :: _, [] => none
  | p :: ps, c :: cs => if p = c then dropLiteral ps cs else none

/-- Reads the longest run of decimal digits at the front of the input as a number;
fails when the input does not start with a digit. -/
def readNumeral (cs : List Char) : Option (Nat × List Char) :=
  if cs.takeWhile isDecimalDigit = [] then none
  else some (decimalValue (cs.takeWhile isDecimalDigit), cs.dropWhile isDecimalDigit)

/-- Reads one formula of the text grammar at the front of the input and returns it
with the rest of the input.  `fuel` bounds the nesting depth. -/
def readFormula : Nat → List Char → Option (Formula × List Char)
  | 0, _ => none
  | fuel + 1, cs =>
    match dropLiteral "#".data cs with
    | some r =>
      match readNumeral r with
      | some (k, r1) => some (.ref k, r1)
      | none => none
    | none =>
    match dropLiteral "(_ bv".data cs with
    | some r =>
      match readNumeral r with
      | some (v, r1) =>
        match dropLiteral " ".data r1 with
        | some r2 =>
          match readNumeral r2 with
          | some (w, r3) =>
            match dropLiteral ")".data r3 with
            | some r4 => some (.bv v w, r4)
            | none => none
          | none => none
        | none => none
      | none => none
    | none =>
    match dropLiteral "(= ".data cs with
    | some r =>
      match readFormula fuel r with
      | some (a, r1) =>
        match dropLiteral " ".data r1 with
        | some r2 =>
          match readFormula fuel r2 with
          | some (b, r3) =>
            match dropLiteral ")".data r3 with
            | some r4 => some (.equal a b, r4)
            | none => none
          | none => none
        | none => none
      | none => none
    | none =>
    match dropLiteral "(ite ".data cs with
    | some r =>
      match readFormula fuel r with
      | some (c, r1) =>
        match dropLiteral " ".data r1 with
        | some r2 =>
          match readFormula fuel r2 with
          | some (t, r3) =>
            match dropLiteral " ".data r3 with
            | some r4 =>
              match readFormula fuel r4 with
              | some (e, r5) =>
                match dropLiteral ")".data r5 with
                | some r6 => some (.ite c t e, r6)
                | none => none
              | none => none
            | none => none
          | none => none
        | none => none
      | none => none
    | none => none

/-- Reads a whole expression text as one formula; fails when the text is not a
formula of the grammar or when something follows the formula. -/
def parseFormula (s : String) : Option Formula :=
  match readFormula (s.length + 1) s.data with
  | some (e, []) => some e
  | _ => none

/-- The values of formulas: a bit vector of a given size, or a truth value. -/
inductive Value where
  | bitvec (size value : Nat) : Value
  | bool (b : Bool) : Value
  deriving DecidableEq, Repr

/-- The sorts of formulas: bit vectors of a given size, and the booleans. -/
inductive FormulaSort where
  | bitvec (size : Nat) : FormulaSort
  | bool : FormulaSort
  deriving DecidableEq, Repr

/-- The sort of a value. -/
def Value.sort : Value → FormulaSort
  | .bitvec size _ => .bitvec size
  | .bool _ => .bool

namespace Formula

/-- The standard meaning of a formula, given the values of the referenced elements:
`(_ bvN w)` is the `w`-bit vector of `N`, `=` compares two values of the same
sort, `ite` selects its second or third argument by the truth value of the
first.  An ill-sorted formula has no value. -/
def eval (env : Nat → Option Value) : Formula → Option Value
  | bv value size => some (.bitvec size (value % 2 ^ size))
  | equal a b =>
    match a.eval env, b.eval env with
    | some x, some y => if x.sort = y.sort then some (.bool (decide (x = y))) else none
    | _, _ => none
  | ite c t e =>
    match c.eval env, t.eval env, e.eval env with
    | some (.bool cond), some x, some y =>
      if x.sort = y.sort then some (if cond then x else y) else none
    | _, _, _ => none
  | ref id => env id

/-- The sort of a formula, given the sorts of the referenced elements; `none` when
the formula is not well-sorted.  A constant `(_ bvN w)` is well-sorted when
`w` is positive and `N` fits in `w` bits. -/
def sortOf (env : Nat → Option FormulaSort) : Formula → Option FormulaSort
  | bv value size => if 0 < size ∧ value < 2 ^ size then some (.bitvec size) else none
  | equal a b =>
    match a.sortOf env, b.sortOf env with
    | some s, some t => if s = t then some .bool else none
    | _, _ => none
  | ite c t e =>
    match c.sortOf env, t.sortOf env, e.sortOf env with
    | some .bool, some s, some u => if s = u then some s else none
    | _, _, _ => none
  | ref id => env id

end Formula

/-- The formula the builder writes at lines 23 to 34 for the immediate `imm`: the
reference to the zero flag or its concrete bit, compared with the false
constant, selecting between the jump target and the next address. -/
def JnzIRBuilder.finalFormula (b : JnzIRBuilder) (ap : AnalysisProcessor) (imm : Nat) :
    Formula :=
  .ite
    (.equal
      (if ap.getRegSymbolicID ID_ZF ≠ UNSET then .ref (ap.getRegSymbolicID ID_ZF)
        else .bv (ap.getFlagValue ID_ZF) 1)
      (.bv 0 1))
    (.bv imm REG_SIZE_BIT)
    (.bv b.nextAddress REG_SIZE_BIT)

/-- The predicate of acyclicity: every id stored in the register-to-symbolic-id
mapping (the sentinel `UNSET` is not an id) and every id in the path-constraint
log is strictly smaller than the next id to allocate. -/
def AnalysisProcessor.idsBelowNext (ap : AnalysisProcessor) : Prop :=
  (∀ r : RegID, ap.getRegSymbolicID r ≠ UNSET → ap.getRegSymbolicID r < ap.nextId) ∧
  (∀ k ∈ ap.pathConstraints, k < ap.nextId)

/-- The input does not continue a numeral: it is empty or starts with a character
that is not a decimal digit. -/
def stopsNumeral (rest : List Char) : Prop :=
  ∀ c : Char, rest.head? = some c → isDecimalDigit c = false

/-! # Theorems -/

/-! ## The immediate variant: success and post-state -/

/-- The immediate variant succeeds exactly when none of its three fallible calls
raises. -/
theorem imm_ok_iff (b : JnzIRBuilder) (f : Faults) (ap : AnalysisProcessor) (inst : Inst) :
    (b.imm f ap inst).1 = .ok () ↔
      (f.raises .createRegSE = false ∧ f.raises .addPathConstraint = false ∧
        f.raises .addElement = false) := by
  unfold JnzIRBuilder.imm AnalysisProcessor.createRegSE AnalysisProcessor.addPathConstraint
    Inst.addElement
  cases h1 : f.raises .createRegSE <;> cases h2 : f.raises .addPathConstraint <;>
    cases h3 : f.raises .addElement <;> simp

/-- The whole outcome of the immediate variant when none of its calls raises. -/
theorem imm_eq_of_quiet (b : JnzIRBuilder) (f : Faults) (ap : AnalysisProcessor) (inst : Inst)
    (h1 : f.raises .createRegSE = false) (h2 : f.raises .addPathConstraint = false)
    (h3 : f.raises .addElement = false) :
    b.imm f ap inst =
      (.ok (), immProcessor ap,
        { inst with elements := inst.elements ++ [immElement b ap] }) := by
  simp [JnzIRBuilder.imm, AnalysisProcessor.createRegSE, AnalysisProcessor.addPathConstraint,
    Inst.addElement, h1, h2, h3, SymbolicElement.getID, immProcessor, immElement]

/-- The whole outcome of a successful immediate variant. -/
theorem imm_eq_of_ok (b : JnzIRBuilder) (f : Faults) (ap : AnalysisProcessor) (inst : Inst)
    (hok : (b.imm f ap inst).1 = .ok ()) :
    b.imm f ap inst =
      (.ok (), immProcessor ap,
        { inst with elements := inst.elements ++ [immElement b ap] }) := by
  obtain ⟨h1, h2, h3⟩ := (imm_ok_iff b f ap inst).1 hok
  exact imm_eq_of_quiet b f ap inst h1 h2 h3

/-! ## What `process()` can do to a processor -/

/-- Either `process()` allocates nothing (then it fails and leaves mappings, counter
and log alone), or it allocates exactly the id `nextId`, maps `RIP` to it, appends
at most that id to the log, and an instruction it returns holds exactly the
element with that id. -/
theorem process_effect (b : JnzIRBuilder) (f : Faults) (ap : AnalysisProcessor) :
    ((b.process f ap).2.nextId = ap.nextId ∧
      (b.process f ap).2.regToSymbolicId = ap.regToSymbolicId ∧
      (b.process f ap).2.pathConstraints = ap.pathConstraints ∧
      ∃ e, (b.process f ap).1 = .error e) ∨
    ((b.process f ap).2.nextId = ap.nextId + 1 ∧
      (b.process f ap).2.regToSymbolicId
        = Function.update ap.regToSymbolicId ID_RIP ap.nextId ∧
      ((b.process f ap).2.pathConstraints = ap.pathConstraints ∨
        (b.process f ap).2.pathConstraints = ap.pathConstraints ++ [ap.nextId]) ∧
      ((∃ e, (b.process f ap).1 = .error e) ∨
        ∃ i, (b.process f ap).1 = .ok i ∧ i.elements.map SymbolicElement.getID = [ap.nextId])) := by
  unfold JnzIRBuilder.process JnzIRBuilder.checkSetup JnzIRBuilder.templateMethod
    JnzIRBuilder.imm JnzIRBuilder.reg JnzIRBuilder.mem JnzIRBuilder.none
    AnalysisProcessor.createRegSE AnalysisProcessor.addPathConstraint Inst.addElement
    AnalysisProcessor.incNumberOfExpressions OneOperandTemplate.stop
  cases hs : b.needSetup <;> cases hk : JnzIRBuilder.operandKind b.operands <;>
    cases h1 : f.raises .createRegSE <;> cases h2 : f.raises .addPathConstraint <;>
    cases h3 : f.raises .addElement <;> cases h4 : f.raises .incNumberOfExpressions <;>
    simp [SymbolicElement.getID]

/-! ## Several processors: ids grow with the shared counter -/

/-- The ids present in the processor `process()` leaves behind are those present
before, or the one id it allocated. -/
theorem process_present (b : JnzIRBuilder) (f : Faults) (ap : AnalysisProcessor) (id : Nat)
    (h : (∃ r, (b.process f ap).2.getRegSymbolicID r ≠ UNSET ∧
            (b.process f ap).2.getRegSymbolicID r = id) ∨
          id ∈ (b.process f ap).2.pathConstraints) :
    ((∃ r, ap.getRegSymbolicID r ≠ UNSET ∧ ap.getRegSymbolicID r = id) ∨
        id ∈ ap.pathConstraints) ∨
      (id = ap.nextId ∧ (b.process f ap).2.nextId = ap.nextId + 1) := by
  simp only [AnalysisProcessor.getRegSymbolicID] at h ⊢
  rcases process_effect b f ap with ⟨_, hreg, hlog, _⟩ | ⟨hn, hreg, hlog, _⟩
  · rw [hreg, hlog] at h
    exact Or.inl h
  · rw [hreg] at h
    rcases h with ⟨r, hr, hrid⟩ | hmem
    · by_cases hrip : r = ID_RIP
      · subst hrip
        rw [Function.update_same] at hrid
        exact Or.inr ⟨hrid.symm, hn⟩
      · rw [Function.update_noteq hrip] at hr hrid
        exact Or.inl (Or.inl ⟨r, hr, hrid⟩)
    · rcases hlog with hlog | hlog
      · rw [hlog] at hmem
        exact Or.inl (Or.inr hmem)
      · rw [hlog, List.mem_append, List.mem_singleton] at hmem
        rcases hmem with hmem | hmem
        · exact Or.inl (Or.inr hmem)
        · exact Or.inr ⟨hmem, hn⟩

/-- The counter never decreases across `process()`, and the ids of a returned
instruction lie between the old and the new counter. -/
theorem process_ids (b : JnzIRBuilder) (f : Faults) (ap : AnalysisProcessor) :
    ap.nextId ≤ (b.process f ap).2.nextId ∧
    ((match (b.process f ap).1 with
        | .ok inst => inst.elements.map SymbolicElement.getID
        | .error _ => []) = [] ∨
      ((match (b.process f ap).1 with
        | .ok inst => inst.elements.map SymbolicElement.getID
        | .error _ => []) = [ap.nextId] ∧ (b.process f ap).2.nextId = ap.nextId + 1)) := by
  rcases process_effect b f ap with ⟨hn, _, _, e, he⟩ | ⟨hn, _, _, ⟨e, he⟩ | ⟨i, hi, hids⟩⟩
  · rw [he, hn]; exact ⟨le_refl _, Or.inl rfl⟩
  · rw [he, hn]; exact ⟨Nat.le_succ _, Or.inl rfl⟩
  · rw [hi, hn]; exact ⟨Nat.le_succ _, Or.inr ⟨hids, rfl⟩⟩

/-- One translation: the created ids are at least the old counter and below the new
one, at most one id is created, and allocatedness is preserved. -/
theorem translate_effect (sys : System) (t : Nat) (b : JnzIRBuilder) (f : Faults) :
    sys.counter ≤ (sys.translate t b f).2.counter ∧
    (∀ id ∈ (sys.translate t b f).1,
      sys.counter ≤ id ∧ id < (sys.translate t b f).2.counter) ∧
    (sys.translate t b f).1.Pairwise (· < ·) ∧
    (sys.allocated → (sys.translate t b f).2.allocated) := by
  unfold System.translate
  cases hget : sys.threads[t]? with
  | none => simp
  | some ap =>
    have hap : ap ∈ sys.threads := List.getElem?_mem hget
    obtain ⟨hle, hids⟩ := process_ids b f (sys.attach ap)
    have hle2 : sys.counter ≤ (b.process f (sys.attach ap)).2.nextId := hle
    refine ⟨hle2, ?_, ?_, ?_⟩
    · intro id hid
      rcases hids with h0 | ⟨h1, hn⟩
      · simp only [h0] at hid
        cases hid
      · simp only [h1, List.mem_singleton] at hid
        subst hid
        simp only [hn]
        exact ⟨le_refl _, Nat.lt_succ_self _⟩
    · rcases hids with h0 | ⟨h1, _⟩
      · simp only [h0]
        exact List.Pairwise.nil
      · simp only [h1]
        exact List.pairwise_singleton _ _
    · intro hall id hpres
      obtain ⟨p, hp, hpid⟩ := hpres
      rcases List.mem_or_eq_of_mem_set hp with hp | hp
      · exact lt_of_lt_of_le (hall id ⟨p, hp, hpid⟩) hle2
      · subst hp
        rcases process_present b f (sys.attach ap) id hpid with hold | ⟨hid, hn⟩
        · exact lt_of_lt_of_le (hall id ⟨ap, hap, hold⟩) hle2
        · simp only [hn, hid]
          exact Nat.lt_succ_self _

/-- A run: the created ids are strictly increasing, lie between the old and the new
counter, and allocatedness is preserved. -/
theorem run_effect (sched : List (Nat × JnzIRBuilder × Faults)) :
    ∀ sys : System,
      sys.counter ≤ (sys.run sched).2.counter ∧
      (∀ id ∈ (sys.run sched).1, sys.counter ≤ id ∧ id < (sys.run sched).2.counter) ∧
      (sys.run sched).1.Pairwise (· < ·) ∧
      (sys.allocated → (sys.run sched).2.allocated) := by
  induction sched with
  | nil =>
    intro sys
    simp [System.run]
  | cons step rest ih =>
    intro sys
    obtain ⟨t, b, f⟩ := step
    obtain ⟨hc1, hid1, hp1, ha1⟩ := translate_effect sys t b f
    obtain ⟨hc2, hid2, hp2, ha2⟩ := ih (sys.translate t b f).2
    simp only [System.run]
    refine ⟨le_trans hc1 hc2, ?_, ?_, fun h => ha2 (ha1 h)⟩
    · intro id hid
      rcases List.mem_append.1 hid with h | h
      · exact ⟨(hid1 id h).1, lt_of_lt_of_le (hid1 id h).2 hc2⟩
      · exact ⟨le_trans hc1 (hid2 id h).1, (hid2 id h).2⟩
    · rw [List.pairwise_append]
      refine ⟨hp1, hp2, ?_⟩
      intro x hx y hy
      exact lt_of_lt_of_le (hid1 x hx).2 (hid2 y hy).1

/-- Running a schedule in two parts creates the ids of the first part followed by
those of the second, and ends in the same system. -/
theorem run_append (pre post : List (Nat × JnzIRBuilder × Faults)) :
    ∀ sys : System,
      sys.run (pre ++ post)
        = ((sys.run pre).1 ++ ((sys.run pre).2.run post).1, ((sys.run pre).2.run post).2) := by
  induction pre with
  | nil => intro sys; simp [System.run]
  | cons step rest ih =>
    intro sys
    obtain ⟨t, b, f⟩ := step
    have h := ih (sys.translate t b f).2
    simp only [List.cons_append, System.run, List.append_assoc, List.append_eq, h]

/-! ## Decimal rendering -/

/-- Each of the ten digit characters has the value of its digit. -/
theorem digitChar_decimal (m : Nat) (h : m < 10) :
    (Nat.digitChar m).toNat - 48 = m ∧ isDecimalDigit (Nat.digitChar m) = true := by
  interval_cases m <;> decide

/-- Reading back the digits produced for `n` in front of `ds` is reading `ds`
starting from `n`. -/
theorem toDigitsCore_value (fuel : Nat) :
    ∀ (n : Nat) (ds : List Char), n < fuel →
      (Nat.toDigitsCore 10 fuel n ds).foldl (fun acc c => 10 * acc + (c.toNat - 48)) 0
        = ds.foldl (fun acc c => 10 * acc + (c.toNat - 48)) n := by
  induction fuel with
  | zero => intro n ds h; exact absurd h (Nat.not_lt_zero n)
  | succ fuel ih =>
    intro n ds h
    have hd := (digitChar_decimal (n % 10) (Nat.mod_lt n (by decide))).1
    simp only [Nat.toDigitsCore]
    split
    · rename_i h0
      have hn : n < 10 := by omega
      simp only [List.foldl_cons, hd]
      congr 1
      omega
    · rename_i h0
      have hlt : n / 10 < fuel := by omega
      rw [ih (n / 10) _ hlt]
      simp only [List.foldl_cons, hd]
      congr 1
      omega

/-- The digits produced are decimal digit characters. -/
theorem toDigitsCore_digits (fuel : Nat) :
    ∀ (n : Nat) (ds : List Char), (∀ c ∈ ds, isDecimalDigit c = true) →
      ∀ c ∈ Nat.toDigitsCore 10 fuel n ds, isDecimalDigit c = true := by
  induction fuel with
  | zero => intro n ds h; simpa [Nat.toDigitsCore] using h
  | succ fuel ih =>
    intro n ds h
    have hd := (digitChar_decimal (n % 10) (Nat.mod_lt n (by decide))).2
    have hcons : ∀ c ∈ Nat.digitChar (n % 10) :: ds, isDecimalDigit c = true := by
      intro c hc
      rcases List.mem_cons.1 hc with hc | hc
      · rw [hc]; exact hd
      · exact h c hc
    simp only [Nat.toDigitsCore]
    split
    · exact hcons
    · exact ih (n / 10) _ hcons

/-- Digits are never lost: the output is non-empty as soon as there is fuel. -/
theorem toDigitsCore_ne_nil (fuel : Nat) :
    ∀ (n : Nat) (ds : List Char), ds ≠ [] ∨ 0 < fuel → Nat.toDigitsCore 10 fuel n ds ≠ [] := by
  induction fuel with
  | zero =>
    intro n ds h
    rcases h with h | h
    · simpa [Nat.toDigitsCore] using h
    · exact absurd h (Nat.lt_irrefl 0)
  | succ fuel ih =>
    intro n ds _
    simp only [Nat.toDigitsCore]
    split
    · exact List.cons_ne_nil _ _
    · exact ih (n / 10) _ (Or.inl (List.cons_ne_nil _ _))

/-- The text `Nat.repr n` is the decimal numeral of `n`: non-empty, made of the
characters 0 to 9 only, and denoting `n`. -/
theorem repr_decimal (n : Nat) :
    (Nat.repr n).data ≠ [] ∧ (∀ c ∈ (Nat.repr n).data, isDecimalDigit c = true) ∧
      decimalValue (Nat.repr n).data = n := by
  have hdata : (Nat.repr n).data = Nat.toDigitsCore 10 (n + 1) n [] := rfl
  rw [hdata]
  refine ⟨toDigitsCore_ne_nil (n + 1) n [] (Or.inr (Nat.succ_pos n)),
    toDigitsCore_digits (n + 1) n [] (fun c hc => by cases hc), ?_⟩
  unfold decimalValue
  rw [toDigitsCore_value (n + 1) n [] (Nat.lt_succ_self n)]
  rfl

/-! ## Reading back what `smt2lib` writes -/

/-- A literal at the front of the input is removed. -/
theorem dropLiteral_append (lit rest : List Char) :
    dropLiteral lit (lit ++ rest) = some rest := by
  induction lit with
  | nil => cases rest <;> rfl
  | cons p ps ih => simp [dropLiteral, ih]

/-- A literal whose first character differs from the input is not removed. -/
theorem dropLiteral_head_ne (p c : Char) (ps cs : List Char) (h : p ≠ c) :
    dropLiteral (p :: ps) (c :: cs) = none := by
  simp [dropLiteral, h]

/-- A run of digits followed by something that is not a digit is read whole. -/
theorem takeWhile_digits_append (ds rest : List Char)
    (hds : ∀ c ∈ ds, isDecimalDigit c = true) (hrest : stopsNumeral rest) :
    (ds ++ rest).takeWhile isDecimalDigit = ds ∧
      (ds ++ rest).dropWhile isDecimalDigit = rest := by
  induction ds with
  | nil =>
    cases rest with
    | nil => exact ⟨rfl, rfl⟩
    | cons c cs =>
      have hc : isDecimalDigit c = false := hrest c rfl
      simp [List.takeWhile, List.dropWhile, hc]
  | cons d ds ih =>
    have hd : isDecimalDigit d = true := hds d (List.mem_cons_self d ds)
    obtain ⟨h1, h2⟩ := ih (fun c hc => hds c (List.mem_cons_of_mem d hc))
    simp [List.takeWhile, List.dropWhile, hd, h1, h2]

/-- The decimal text of `v`, followed by something that is not a digit, reads back
as `v`. -/
theorem readNumeral_repr (v : Nat) (rest : List Char) (hrest : stopsNumeral rest) :
    readNumeral ((Nat.repr v).data ++ rest) = some (v, rest) := by
  obtain ⟨hne, hdig, hval⟩ := repr_decimal v
  obtain ⟨h1, h2⟩ := takeWhile_digits_append (Nat.repr v).data rest hdig hrest
  unfold readNumeral
  rw [h1, h2, if_neg hne, hval]

/-- Input that starts with a character that is not a digit stops a numeral. -/
theorem stopsNumeral_cons (c : Char) (cs : List Char) (h : isDecimalDigit c = false) :
    stopsNumeral (c :: cs) := by
  intro d hd
  simp only [List.head?_cons, Option.some.injEq] at hd
  rw [← hd]
  exact h

/-- The characters of the five literals of the grammar. -/
theorem literal_data :
    "#".data = ['#'] ∧ "(_ bv".data = ['(', '_', ' ', 'b', 'v'] ∧
    "(= ".data = ['(', '=', ' '] ∧ "(ite ".data = ['(', 'i', 't', 'e', ' '] ∧
    " ".data = [' '] ∧ ")".data = [')'] :=
  ⟨rfl, rfl, rfl, rfl, rfl, rfl⟩

/-- A blank and a closing bracket stop a numeral. -/
theorem stopsNumeral_blank (cs : List Char) : stopsNumeral (' ' :: cs) :=
  stopsNumeral_cons ' ' cs (by decide)

/-- A closing bracket stops a numeral. -/
theorem stopsNumeral_close (cs : List Char) : stopsNumeral (')' :: cs) :=
  stopsNumeral_cons ')' cs (by decide)

/-- Reading back a rendered formula gives the formula and leaves the rest of the
input, whenever the fuel covers the nesting depth. -/
theorem readFormula_render (e : Formula) :
    ∀ (fuel : Nat) (rest : List Char), e.depth ≤ fuel → stopsNumeral rest →
      readFormula fuel (e.render.data ++ rest) = some (e, rest) := by
  obtain ⟨l1, l2, l3, l4, l5, l6⟩ := literal_data
  induction e with
  | bv v w =>
    intro fuel rest hfuel hrest
    cases fuel with
    | zero => simp [Formula.depth] at hfuel
    | succ n =>
      have hdata : (Formula.bv v w).render.data ++ rest =
          '(' :: '_' :: ' ' :: 'b' :: 'v' ::
            ((Nat.repr v).data ++ ' ' :: ((Nat.repr w).data ++ ')' :: rest)) := by
        simp only [Formula.render, smt2lib.bv, String.data_append, List.append_assoc, l2, l5, l6]
        rfl
      rw [hdata]
      simp only [readFormula, l1, l2, l5, l6]
      rw [dropLiteral_head_ne _ _ _ _ (by decide)]
      have h2 := dropLiteral_append ['(', '_', ' ', 'b', 'v']
        ((Nat.repr v).data ++ ' ' :: ((Nat.repr w).data ++ ')' :: rest))
      simp only [List.cons_append, List.nil_append] at h2
      simp only [h2, readNumeral_repr v _ (stopsNumeral_blank _)]
      have h3 := dropLiteral_append [' '] ((Nat.repr w).data ++ ')' :: rest)
      simp only [List.cons_append, List.nil_append] at h3
      simp only [h3, readNumeral_repr w _ (stopsNumeral_close _)]
      have h4 := dropLiteral_append [')'] rest
      simp only [List.cons_append, List.nil_append] at h4
      simp only [h4]
  | ref k =>
    intro fuel rest hfuel hrest
    cases fuel with
    | zero => simp [Formula.depth] at hfuel
    | succ n =>
      have hdata : (Formula.ref k).render.data ++ rest = '#' :: ((Nat.repr k).data ++ rest) := by
        simp only [Formula.render, String.data_append, List.append_assoc, l1]
        rfl
      rw [hdata]
      simp only [readFormula, l1]
      have h1 := dropLiteral_append ['#'] ((Nat.repr k).data ++ rest)
      simp only [List.cons_append, List.nil_append] at h1
      simp only [h1, readNumeral_repr k _ hrest]
  | equal a b iha ihb =>
    intro fuel rest hfuel hrest
    cases fuel with
    | zero => simp [Formula.depth] at hfuel
    | succ n =>
      have hda : a.depth ≤ n := by simp only [Formula.depth] at hfuel; omega
      have hdb : b.depth ≤ n := by simp only [Formula.depth] at hfuel; omega
      have hdata : (Formula.equal a b).render.data ++ rest =
          '(' :: '=' :: ' ' :: (a.render.data ++ ' ' :: (b.render.data ++ ')' :: rest)) := by
        simp only [Formula.render, smt2lib.equal, String.data_append, List.append_assoc, l3, l5, l6]
        rfl
      rw [hdata]
      simp only [readFormula, l1, l2, l3, l5, l6]
      rw [dropLiteral_head_ne _ _ _ _ (by decide)]
      have h2 : dropLiteral ['(', '_', ' ', 'b', 'v']
          ('(' :: '=' :: ' ' :: (a.render.data ++ ' ' :: (b.render.data ++ ')' :: rest)))
          = none := by
        simp [dropLiteral]
      have h3 := dropLiteral_append ['(', '=', ' ']
        (a.render.data ++ ' ' :: (b.render.data ++ ')' :: rest))
      simp only [List.cons_append, List.nil_append] at h3
      simp only [h2, h3, iha n _ hda (stopsNumeral_blank _)]
      have h4 := dropLiteral_append [' '] (b.render.data ++ ')' :: rest)
      simp only [List.cons_append, List.nil_append] at h4
      simp only [h4, ihb n _ hdb (stopsNumeral_close _)]
      have h5 := dropLiteral_append [')'] rest
      simp only [List.cons_append, List.nil_append] at h5
      simp only [h5]
  | ite c t e ihc iht ihe =>
    intro fuel rest hfuel hrest
    cases fuel with
    | zero => simp [Formula.depth] at hfuel
    | succ n =>
      have hdc : c.depth ≤ n := by simp only [Formula.depth] at hfuel; omega
      have hdt : t.depth ≤ n := by simp only [Formula.depth] at hfuel; omega
      have hde : e.depth ≤ n := by simp only [Formula.depth] at hfuel; omega
      have hdata : (Formula.ite c t e).render.data ++ rest =
          '(' :: 'i' :: 't' :: 'e' :: ' ' ::
            (c.render.data ++ ' ' :: (t.render.data ++ ' ' :: (e.render.data ++ ')' :: rest))) := by
        simp only [Formula.render, smt2lib.ite, String.data_append, List.append_assoc, l4, l5, l6]
        rfl
      rw [hdata]
      simp only [readFormula, l1, l2, l3, l4, l5, l6]
      rw [dropLiteral_head_ne _ _ _ _ (by decide)]
      have h2 : dropLiteral ['(', '_', ' ', 'b', 'v']
          ('(' :: 'i' :: 't' :: 'e' :: ' ' ::
            (c.render.data ++ ' ' :: (t.render.data ++ ' ' :: (e.render.data ++ ')' :: rest))))
          = none := by
        simp [dropLiteral]
      have h3 : dropLiteral ['(', '=', ' ']
          ('(' :: 'i' :: 't' :: 'e' :: ' ' ::
            (c.render.data ++ ' ' :: (t.render.data ++ ' ' :: (e.render.data ++ ')' :: rest))))
          = none := by
        simp [dropLiteral]
      have h4 := dropLiteral_append ['(', 'i', 't', 'e', ' ']
        (c.render.data ++ ' ' :: (t.render.data ++ ' ' :: (e.render.data ++ ')' :: rest)))
      simp only [List.cons_append, List.nil_append] at h4
      simp only [h2, h3, h4, ihc n _ hdc (stopsNumeral_blank _)]
      have h5 := dropLiteral_append [' '] (t.render.data ++ ' ' :: (e.render.data ++ ')' :: rest))
      simp only [List.cons_append, List.nil_append] at h5
      simp only [h5, iht n _ hdt (stopsNumeral_blank _)]
      have h6 := dropLiteral_append [' '] (e.render.data ++ ')' :: rest)
      simp only [List.cons_append, List.nil_append] at h6
      simp only [h6, ihe n _ hde (stopsNumeral_close _)]
      have h7 := dropLiteral_append [')'] rest
      simp only [List.cons_append, List.nil_append] at h7
      simp only [h7]

/-- The text of a formula is at least as long as the formula is deep. -/
theorem depth_le_length (e : Formula) : e.depth ≤ e.render.length := by
  have l1 : "#".length = 1 := rfl
  have l2 : "(_ bv".length = 5 := rfl
  have l3 : "(= ".length = 3 := rfl
  have l4 : "(ite ".length = 5 := rfl
  have l5 : " ".length = 1 := rfl
  have l6 : ")".length = 1 := rfl
  induction e with
  | bv v w =>
    simp only [Formula.depth, Formula.render, smt2lib.bv, String.length_append, l2, l5, l6]
    omega
  | ref k =>
    simp only [Formula.depth, Formula.render, String.length_append, l1]
    omega
  | equal a b iha ihb =>
    simp only [Formula.depth, Formula.render, smt2lib.equal, String.length_append, l3, l5, l6]
    omega
  | ite c t e ihc iht ihe =>
    simp only [Formula.depth, Formula.render, smt2lib.ite, String.length_append, l4, l5, l6]
    omega

/-- Round trip: every formula is read back from its text. -/
theorem parseFormula_render (e : Formula) : parseFormula e.render = some e := by
  have h := readFormula_render e (e.render.length + 1) []
    (Nat.le_succ_of_le (depth_le_length e)) (fun c hc => by cases hc)
  rw [List.append_nil] at h
  simp only [parseFormula, h]

/-- The text the builder writes is the text of `finalFormula`. -/
theorem finalExpr_eq_render (b : JnzIRBuilder) (ap : AnalysisProcessor) (imm : Nat) :
    JnzIRBuilder.finalExpr b ap imm = (JnzIRBuilder.finalFormula b ap imm).render := by
  have hfalse : smt2lib.bvfalse = smt2lib.bv 0 1 := by decide
  unfold JnzIRBuilder.finalExpr JnzIRBuilder.finalFormula JnzIRBuilder.zfExpr
  by_cases h : ap.getRegSymbolicID ID_ZF ≠ UNSET
  · simp only [h, ne_eq, not_false_eq_true, if_true, Formula.render, hfalse]
  · simp only [h, ne_eq, if_false, Formula.render, hfalse]

/-- The text the builder writes reads back as `finalFormula`. -/
theorem parseFormula_finalExpr (b : JnzIRBuilder) (ap : AnalysisProcessor) (imm : Nat) :
    parseFormula (JnzIRBuilder.finalExpr b ap imm)
      = some (JnzIRBuilder.finalFormula b ap imm) := by
  rw [finalExpr_eq_render, parseFormula_render]

/-! ## What the immediate variant can do to a processor -/

/-- Either `imm` allocates nothing and leaves mappings, counter and log alone, or
it allocates exactly the id `nextId`, maps `RIP` to it and appends at most that id
to the log. -/
theorem imm_effect (b : JnzIRBuilder) (f : Faults) (ap : AnalysisProcessor) (inst : Inst) :
    ((b.imm f ap inst).2.1.nextId = ap.nextId ∧
      (b.imm f ap inst).2.1.regToSymbolicId = ap.regToSymbolicId ∧
      (b.imm f ap inst).2.1.pathConstraints = ap.pathConstraints) ∨
    ((b.imm f ap inst).2.1.nextId = ap.nextId + 1 ∧
      (b.imm f ap inst).2.1.regToSymbolicId
        = Function.update ap.regToSymbolicId ID_RIP ap.nextId ∧
      ((b.imm f ap inst).2.1.pathConstraints = ap.pathConstraints ∨
        (b.imm f ap inst).2.1.pathConstraints = ap.pathConstraints ++ [ap.nextId])) := by
  unfold JnzIRBuilder.imm AnalysisProcessor.createRegSE AnalysisProcessor.addPathConstraint
    Inst.addElement
  cases h1 : f.raises .createRegSE <;> cases h2 : f.raises .addPathConstraint <;>
    cases h3 : f.raises .addElement <;> simp [SymbolicElement.getID]

/-- Allocating the next id, mapping `RIP` to it and appending at most that id to the
log keeps every stored id below the next id. -/
theorem idsBelowNext_step (ap ap1 : AnalysisProcessor) (hinv : ap.idsBelowNext)
    (hn : ap1.nextId = ap.nextId + 1)
    (hreg : ap1.regToSymbolicId = Function.update ap.regToSymbolicId ID_RIP ap.nextId)
    (hlog : ap1.pathConstraints = ap.pathConstraints ∨
      ap1.pathConstraints = ap.pathConstraints ++ [ap.nextId]) :
    ap1.idsBelowNext := by
  obtain ⟨hr, hl⟩ := hinv
  simp only [AnalysisProcessor.getRegSymbolicID] at hr
  constructor
  · intro r hne
    simp only [AnalysisProcessor.getRegSymbolicID, hreg, hn] at hne ⊢
    by_cases hrip : r = ID_RIP
    · subst hrip
      rw [Function.update_same]
      exact Nat.lt_succ_self _
    · rw [Function.update_noteq hrip] at hne ⊢
      exact Nat.lt_succ_of_lt (hr r hne)
  · intro k hk
    rw [hn]
    rcases hlog with hlog | hlog
    · rw [hlog] at hk
      exact Nat.lt_succ_of_lt (hl k hk)
    · rw [hlog, List.mem_append, List.mem_singleton] at hk
      rcases hk with hk | hk
      · exact Nat.lt_succ_of_lt (hl k hk)
      · rw [hk]
        exact Nat.lt_succ_self _

/-- The references of the formula the builder writes: the id the zero flag is
mapped to, when it is mapped. -/
theorem finalFormula_refs (b : JnzIRBuilder) (ap : AnalysisProcessor) (imm : Nat) :
    ∀ k ∈ (JnzIRBuilder.finalFormula b ap imm).refs,
      k = ap.getRegSymbolicID ID_ZF ∧ ap.getRegSymbolicID ID_ZF ≠ UNSET := by
  intro k hk
  unfold JnzIRBuilder.finalFormula at hk
  by_cases h : ap.getRegSymbolicID ID_ZF ≠ UNSET
  · simp only [h, ne_eq, not_false_eq_true, if_true, Formula.refs, List.append_nil,
      List.mem_singleton] at hk
    exact ⟨hk, h⟩
  · simp [h, Formula.refs] at hk

/-! ## The claims -/

/-- C1. Whenever `JnzIRBuilder::imm` succeeds on an instruction whose first operand is
`op`, the one element it attaches has expression
`ite(equal(zf, bvfalse()), bv(imm, 64), bv(next, 64))`, where `zf` is `#` followed
by the decimal id when `getRegSymbolicID(ZF)` is not `UNSET`, and
`bv(getFlagValue(ZF), 1)` when it is `UNSET`; `imm` and `next` range over all
naturals, in particular over all 64-bit values. -/
theorem C1_imm_expression (b : JnzIRBuilder) (f : Faults) (ap : AnalysisProcessor)
    (inst : Inst) (op : Operand) (rest : List Operand)
    (hop : b.operands = op :: rest) (hok : (b.imm f ap inst).1 = .ok ()) :
    ∃ se : SymbolicElement,
      (b.imm f ap inst).2.2.elements = inst.elements ++ [se] ∧
      (ap.getRegSymbolicID ID_ZF ≠ UNSET →
        se.expression =
          smt2lib.ite
            (smt2lib.equal ("#" ++ Nat.repr (ap.getRegSymbolicID ID_ZF)) smt2lib.bvfalse)
            (smt2lib.bv op.getValue 64) (smt2lib.bv b.nextAddress 64)) ∧
      (ap.getRegSymbolicID ID_ZF = UNSET →
        se.expression =
          smt2lib.ite
            (smt2lib.equal (smt2lib.bv (ap.getFlagValue ID_ZF) 1) smt2lib.bvfalse)
            (smt2lib.bv op.getValue 64) (smt2lib.bv b.nextAddress 64)) := by
  rw [imm_eq_of_ok b f ap inst hok]
  refine ⟨immElement b ap, rfl, ?_, ?_⟩
  · intro h
    simp [immElement, JnzIRBuilder.finalExpr, JnzIRBuilder.zfExpr, h, hop, REG_SIZE_BIT]
  · intro h
    simp [immElement, JnzIRBuilder.finalExpr, JnzIRBuilder.zfExpr, h, hop, REG_SIZE_BIT]

/-- Witness of C1: the section 8 scenario (zero flag not symbolized, concrete value 0). -/
theorem C1_imm_expression_witness :
    scenarioBuilder.operands = ⟨.IMM, 0x401010⟩ :: [] ∧
    (scenarioBuilder.imm Faults.never (freshProcessor 0) emptyInst).1 = .ok () ∧
    ∃ se : SymbolicElement,
      (scenarioBuilder.imm Faults.never (freshProcessor 0) emptyInst).2.2.elements
        = emptyInst.elements ++ [se] ∧
      ((freshProcessor 0).getRegSymbolicID ID_ZF ≠ UNSET →
        se.expression =
          smt2lib.ite
            (smt2lib.equal ("#" ++ Nat.repr ((freshProcessor 0).getRegSymbolicID ID_ZF))
              smt2lib.bvfalse)
            (smt2lib.bv (Operand.mk .IMM 0x401010).getValue 64)
            (smt2lib.bv scenarioBuilder.nextAddress 64)) ∧
      ((freshProcessor 0).getRegSymbolicID ID_ZF = UNSET →
        se.expression =
          smt2lib.ite
            (smt2lib.equal (smt2lib.bv ((freshProcessor 0).getFlagValue ID_ZF) 1)
              smt2lib.bvfalse)
            (smt2lib.bv (Operand.mk .IMM 0x401010).getValue 64)
            (smt2lib.bv scenarioBuilder.nextAddress 64)) :=
  ⟨rfl, rfl,
    C1_imm_expression scenarioBuilder Faults.never (freshProcessor 0) emptyInst
      ⟨.IMM, 0x401010⟩ [] rfl rfl⟩

/-- C2 as stated fails: in the scenario (zero flag `UNSET` with concrete value 0,
immediate `0x401010`, next address `0x400ffa`) the immediate variant attaches the
single expression `(ite (= (_ bv0 1) (_ bv0 1)) (_ bv4198416 64) (_ bv4198394 64))`,
which is not the claimed text: `0x400ffa` is 4198394, not 4194810. -/
theorem C2_scenario_counterexample :
    (scenarioBuilder.imm Faults.never (freshProcessor 0) emptyInst).2.2.elements.map
        SymbolicElement.expression
      = ["(ite (= (_ bv0 1) (_ bv0 1)) (_ bv4198416 64) (_ bv4198394 64))"] ∧
    (scenarioBuilder.imm Faults.never (freshProcessor 0) emptyInst).2.2.elements.map
        SymbolicElement.expression
      ≠ ["(ite (= (_ bv0 1) (_ bv0 1)) (_ bv4198416 64) (_ bv4194810 64))"] := by
  constructor
  · decide
  · decide

/-- C2 (amended). With the zero flag `UNSET` and concrete value 0, immediate target
`0x401010` and next-instruction address `0x400ffa`, and no call raising,
`JnzIRBuilder::imm` succeeds, attaches exactly one new element, with the fresh id,
the expression `(ite (= (_ bv0 1) (_ bv0 1)) (_ bv4198416 64) (_ bv4198394 64))` and
location name `RIP`, maps `RIP` to that id, allocates exactly one id, and appends
exactly one path-constraint entry, that id. -/
theorem C2_scenario (b : JnzIRBuilder) (ap : AnalysisProcessor) (inst : Inst)
    (k : OperandKind) (rest : List Operand)
    (hop : b.operands = ⟨k, 0x401010⟩ :: rest) (hnext : b.nextAddress = 0x400ffa)
    (hzf : ap.getRegSymbolicID ID_ZF = UNSET) (hflag : ap.getFlagValue ID_ZF = 0) :
    (b.imm Faults.never ap inst).1 = .ok () ∧
    (b.imm Faults.never ap inst).2.2.elements = inst.elements ++
      [⟨ap.nextId, "(ite (= (_ bv0 1) (_ bv0 1)) (_ bv4198416 64) (_ bv4198394 64))",
        "RIP"⟩] ∧
    (b.imm Faults.never ap inst).2.1.getRegSymbolicID ID_RIP = ap.nextId ∧
    (b.imm Faults.never ap inst).2.1.nextId = ap.nextId + 1 ∧
    (b.imm Faults.never ap inst).2.1.pathConstraints = ap.pathConstraints ++ [ap.nextId] := by
  rw [imm_eq_of_quiet b Faults.never ap inst rfl rfl rfl]
  refine ⟨rfl, ?_, ?_, rfl, rfl⟩
  · have h : immElement b ap =
        ⟨ap.nextId, "(ite (= (_ bv0 1) (_ bv0 1)) (_ bv4198416 64) (_ bv4198394 64))",
          "RIP"⟩ := by
      simp only [immElement, JnzIRBuilder.finalExpr, JnzIRBuilder.zfExpr, hzf, hflag, hop,
        hnext, REG_SIZE_BIT, List.headD_cons, Operand.getValue, ne_eq, not_true_eq_false,
        if_false, SymbolicElement.mk.injEq, true_and, and_true]
      decide
    rw [h]
  · simp [immProcessor, AnalysisProcessor.getRegSymbolicID]

/-- Witness of C2 (amended): the scenario on a fresh processor. -/
theorem C2_scenario_witness :
    scenarioBuilder.operands = ⟨.IMM, 0x401010⟩ :: [] ∧
    scenarioBuilder.nextAddress = 0x400ffa ∧
    (freshProcessor 0).getRegSymbolicID ID_ZF = UNSET ∧
    (freshProcessor 0).getFlagValue ID_ZF = 0 ∧
    (scenarioBuilder.imm Faults.never (freshProcessor 0) emptyInst).2.1.pathConstraints
      = (freshProcessor 0).pathConstraints ++ [(freshProcessor 0).nextId] :=
  ⟨rfl, rfl, rfl, rfl,
    (C2_scenario scenarioBuilder (freshProcessor 0) emptyInst .IMM [] rfl rfl rfl rfl).2.2.2.2⟩

/-- C3. A successful `JnzIRBuilder::imm` leaves the path-constraint log equal to the
log before the call with exactly one entry appended at the end, and that entry is
the id of the element this call created (the fresh id) and attached to the
instruction; prior entries are kept in order. -/
theorem C3_imm_appends_one_constraint (b : JnzIRBuilder) (f : Faults)
    (ap : AnalysisProcessor) (inst : Inst) (op : Operand) (rest : List Operand)
    (_hop : b.operands = op :: rest) (hok : (b.imm f ap inst).1 = .ok ()) :
    ∃ se : SymbolicElement,
      (b.imm f ap inst).2.2.elements = inst.elements ++ [se] ∧
      se.getID = ap.nextId ∧
      (b.imm f ap inst).2.1.pathConstraints = ap.pathConstraints ++ [se.getID] := by
  rw [imm_eq_of_ok b f ap inst hok]
  exact ⟨immElement b ap, rfl, rfl, rfl⟩

/-- Witness of C3: a processor whose log already holds two entries. -/
theorem C3_imm_appends_one_constraint_witness :
    scenarioBuilder.operands = ⟨.IMM, 0x401010⟩ :: [] ∧
    (scenarioBuilder.imm Faults.never
        { freshProcessor 0 with nextId := 9, pathConstraints := [3, 5] } emptyInst).1
      = .ok () ∧
    (scenarioBuilder.imm Faults.never
        { freshProcessor 0 with nextId := 9, pathConstraints := [3, 5] }
        emptyInst).2.1.pathConstraints = [3, 5, 9] := by
  refine ⟨rfl, rfl, ?_⟩
  obtain ⟨se, _, hid, hlog⟩ :=
    C3_imm_appends_one_constraint scenarioBuilder Faults.never
      { freshProcessor 0 with nextId := 9, pathConstraints := [3, 5] } emptyInst
      ⟨.IMM, 0x401010⟩ [] rfl rfl
  rw [hlog, hid]
  rfl

/-- C4. Each of `JnzIRBuilder::reg`, `JnzIRBuilder::mem` and `JnzIRBuilder::none`
fails with the fatal stop carrying the builder's disassembly text, for every
processor state and instruction container; none of them returns normally. -/
theorem C4_unsupported_variants_stop (b : JnzIRBuilder) (ap : AnalysisProcessor)
    (inst : Inst) :
    ((b.reg ap inst).1 = .error (.fatalStop b.disas) ∧ (b.reg ap inst).1 ≠ .ok ()) ∧
    ((b.mem ap inst).1 = .error (.fatalStop b.disas) ∧ (b.mem ap inst).1 ≠ .ok ()) ∧
    ((b.none ap inst).1 = .error (.fatalStop b.disas) ∧ (b.none ap inst).1 ≠ .ok ()) := by
  simp [JnzIRBuilder.reg, JnzIRBuilder.mem, JnzIRBuilder.none, OneOperandTemplate.stop]

/-- C5 as stated fails: on a fresh processor, when `inst.addElement` raises after
`createRegSE` has created element 0, `process()` fails and returns no instruction,
but the path-constraint log has gained the entry 0. -/
theorem C5_atomicity_counterexample :
    (Faults.only .addElement).raises .createRegSE = false ∧
    (scenarioBuilder.process (Faults.only .addElement) (freshProcessor 0)).1
      = .error (.construction .addElement) ∧
    (freshProcessor 0).pathConstraints = [] ∧
    (scenarioBuilder.process (Faults.only .addElement) (freshProcessor 0)).2.pathConstraints
      = [0] ∧
    (scenarioBuilder.process (Faults.only .addElement) (freshProcessor 0)).2.pathConstraints
      ≠ (freshProcessor 0).pathConstraints := by
  refine ⟨rfl, rfl, rfl, rfl, ?_⟩
  decide

/-- The outcome of `process()` on an immediate operand that passes `checkSetup`, in
terms of the outcome of the immediate variant. -/
theorem process_imm_eq (b : JnzIRBuilder) (f : Faults) (ap : AnalysisProcessor)
    (hk : JnzIRBuilder.operandKind b.operands = .IMM) (hsetup : b.needSetup = false) :
    b.process f ap =
      match b.imm f ap ⟨ap.getThreadID, b.address, b.disas, []⟩ with
      | (.error e, ap1, _) => (.error e, ap1)
      | (.ok (), ap1, inst1) =>
        match ap1.incNumberOfExpressions f inst1.numberOfElements with
        | (.error e, ap2) => (.error e, ap2)
        | (.ok (), ap2) => (.ok inst1, ap2) := by
  simp [JnzIRBuilder.process, JnzIRBuilder.checkSetup, hsetup, JnzIRBuilder.templateMethod, hk]

/-- C5 (amended). When `process()` on a JNZ instruction with an immediate operand
fails after `createRegSE` has created an element, no instruction is returned; the
path-constraint log equals the log before the call when the failure was raised by
`addPathConstraint`, and it is the log before the call with the created element's
id appended when the failure was raised later (by `inst.addElement` or by
`incNumberOfExpressions`): `process()` does not roll the processor back. -/
theorem C5_atomicity_amended (b : JnzIRBuilder) (f : Faults) (ap : AnalysisProcessor)
    (hk : JnzIRBuilder.operandKind b.operands = .IMM) (hsetup : b.needSetup = false)
    (hcreate : f.raises .createRegSE = false)
    (hfail : ∀ i : Inst, (b.process f ap).1 ≠ .ok i) :
    (∃ e, (b.process f ap).1 = .error e) ∧
    (f.raises .addPathConstraint = true →
      (b.process f ap).1 = .error (.construction .addPathConstraint) ∧
      (b.process f ap).2.pathConstraints = ap.pathConstraints) ∧
    (f.raises .addPathConstraint = false →
      (f.raises .addElement = true ∨ f.raises .incNumberOfExpressions = true) ∧
      (b.process f ap).2.pathConstraints = ap.pathConstraints ++ [ap.nextId]) := by
  rw [process_imm_eq b f ap hk hsetup] at hfail ⊢
  revert hfail
  unfold JnzIRBuilder.imm AnalysisProcessor.createRegSE AnalysisProcessor.addPathConstraint
    Inst.addElement AnalysisProcessor.incNumberOfExpressions
  cases h2 : f.raises .addPathConstraint <;> cases h3 : f.raises .addElement <;>
    cases h4 : f.raises .incNumberOfExpressions <;>
    simp [hcreate, SymbolicElement.getID]

/-- Witness of C5 (amended): `incNumberOfExpressions` raises on a fresh processor. -/
theorem C5_atomicity_amended_witness :
    JnzIRBuilder.operandKind scenarioBuilder.operands = .IMM ∧
    scenarioBuilder.needSetup = false ∧
    (Faults.only .incNumberOfExpressions).raises .createRegSE = false ∧
    (∀ i : Inst,
      (scenarioBuilder.process (Faults.only .incNumberOfExpressions) (freshProcessor 0)).1
        ≠ .ok i) ∧
    ((Faults.only .incNumberOfExpressions).raises .addPathConstraint = false →
      (scenarioBuilder.process (Faults.only .incNumberOfExpressions)
        (freshProcessor 0)).2.pathConstraints
        = (freshProcessor 0).pathConstraints ++ [(freshProcessor 0).nextId]) := by
  have hfail : ∀ i : Inst,
      (scenarioBuilder.process (Faults.only .incNumberOfExpressions) (freshProcessor 0)).1
        ≠ .ok i := by
    intro i h
    have he : (scenarioBuilder.process (Faults.only .incNumberOfExpressions)
        (freshProcessor 0)).1 = .error (.construction .incNumberOfExpressions) := rfl
    rw [he] at h
    cases h
  exact ⟨rfl, rfl, rfl, hfail,
    fun h => ((C5_atomicity_amended scenarioBuilder (Faults.only .incNumberOfExpressions)
      (freshProcessor 0) rfl rfl rfl hfail).2.2 h).2⟩

/-- C6. After a successful `JnzIRBuilder::imm`, `getRegSymbolicID(RIP)` is the id of
the element this call created and attached to the instruction, whatever `RIP` was
mapped to before: the attached element is the one `createRegSE` returned for
`ID_RIP`, its id is the id allocated by this call (the next id before the call,
and the counter has advanced by one), `RIP` is mapped to that id after the call,
and the mapping differs from the one before whenever `RIP` was mapped to an
earlier id. -/
theorem C6_imm_redefines_rip (b : JnzIRBuilder) (f : Faults) (ap : AnalysisProcessor)
    (inst : Inst) (op : Operand) (rest : List Operand)
    (hop : b.operands = op :: rest) (hok : (b.imm f ap inst).1 = .ok ()) :
    ∃ se : SymbolicElement,
      (ap.createRegSE f (JnzIRBuilder.finalExpr b ap op.getValue) ID_RIP "RIP").1 = .ok se ∧
      se.getID = ap.nextId ∧
      se.definedLocationName = "RIP" ∧
      (b.imm f ap inst).2.2.elements = inst.elements ++ [se] ∧
      (b.imm f ap inst).2.1.nextId = ap.nextId + 1 ∧
      (b.imm f ap inst).2.1.getRegSymbolicID ID_RIP = se.getID ∧
      (b.imm f ap inst).2.1.getRegSymbolicID ID_RIP = ap.nextId ∧
      (ap.getRegSymbolicID ID_RIP < ap.nextId →
        (b.imm f ap inst).2.1.getRegSymbolicID ID_RIP ≠ ap.getRegSymbolicID ID_RIP) := by
  obtain ⟨h1, h2, h3⟩ := (imm_ok_iff b f ap inst).1 hok
  rw [imm_eq_of_quiet b f ap inst h1 h2 h3]
  have hmap : (immProcessor ap).getRegSymbolicID ID_RIP = ap.nextId := by
    simp [immProcessor, AnalysisProcessor.getRegSymbolicID]
  refine ⟨immElement b ap, ?_, rfl, rfl, rfl, rfl, hmap, hmap, ?_⟩
  · simp [AnalysisProcessor.createRegSE, h1, immElement, hop]
  · intro hlt
    show (immProcessor ap).getRegSymbolicID ID_RIP ≠ ap.getRegSymbolicID ID_RIP
    rw [hmap]
    exact (ne_of_lt hlt).symm

/-- Witness of C6: `RIP` was mapped to the earlier element 4 and the next id is 9; the
call attaches element 9 and maps `RIP` to 9. -/
theorem C6_imm_redefines_rip_witness :
    scenarioBuilder.operands = ⟨.IMM, 0x401010⟩ :: [] ∧
    ({ freshProcessor 0 with
        nextId := 9, regToSymbolicId := Function.update (fun _ => UNSET) ID_RIP 4 } :
      AnalysisProcessor).getRegSymbolicID ID_RIP = 4 ∧
    (scenarioBuilder.imm Faults.never
        { freshProcessor 0 with
            nextId := 9, regToSymbolicId := Function.update (fun _ => UNSET) ID_RIP 4 }
        emptyInst).1 = .ok () ∧
    (scenarioBuilder.imm Faults.never
        { freshProcessor 0 with
            nextId := 9, regToSymbolicId := Function.update (fun _ => UNSET) ID_RIP 4 }
        emptyInst).2.2.elements.map SymbolicElement.getID = [9] ∧
    (scenarioBuilder.imm Faults.never
        { freshProcessor 0 with
            nextId := 9, regToSymbolicId := Function.update (fun _ => UNSET) ID_RIP 4 }
        emptyInst).2.1.getRegSymbolicID ID_RIP = 9 := by
  obtain ⟨se, _, hid, _, hel, _, _, hmap, _⟩ :=
    C6_imm_redefines_rip scenarioBuilder Faults.never
      { freshProcessor 0 with
          nextId := 9, regToSymbolicId := Function.update (fun _ => UNSET) ID_RIP 4 }
      emptyInst ⟨.IMM, 0x401010⟩ [] rfl rfl
  refine ⟨rfl, rfl, rfl, ?_, hmap⟩
  rw [hel, List.map_append, List.map_cons, hid]
  rfl

/-- C7. For every finite sequence of JNZ translations run one after another on the
threads of a system that share the id counter, the ids of the elements of the
returned instructions are strictly increasing in creation order, hence never
repeat; and when every id present at the start was allocated (as in a fresh
session), each id created in the rest of a run is absent from every register
mapping and every path-constraint log of the system as it was before that rest
of the run. -/
theorem C7_ids_strictly_increasing (sys : System)
    (pre post : List (Nat × JnzIRBuilder × Faults)) (hall : sys.allocated) :
    (sys.run (pre ++ post)).1.Pairwise (· < ·) ∧
    (sys.run (pre ++ post)).1.Nodup ∧
    (sys.run (pre ++ post)).1 = (sys.run pre).1 ++ ((sys.run pre).2.run post).1 ∧
    ∀ id ∈ ((sys.run pre).2.run post).1, ¬ (sys.run pre).2.present id := by
  obtain ⟨_, _, hpw, _⟩ := run_effect (pre ++ post) sys
  refine ⟨hpw, hpw.imp (fun h => ne_of_lt h), ?_, ?_⟩
  · rw [run_append]
  · intro id hid hpres
    obtain ⟨_, _, _, hpre⟩ := run_effect pre sys
    obtain ⟨_, hids, _, _⟩ := run_effect post (sys.run pre).2
    exact absurd (hpre hall id hpres) (not_lt.2 (hids id hid).1)

/-- Witness of C7: three successful translations on the two threads of a fresh
session create the ids 0, 1, 2. -/
theorem C7_ids_strictly_increasing_witness :
    (System.fresh 2).allocated ∧
    ((System.fresh 2).run
      ([(0, scenarioBuilder, Faults.never)] ++
        [(1, scenarioBuilder, Faults.never), (0, scenarioBuilder, Faults.never)])).1
      = [0, 1, 2] ∧
    ((System.fresh 2).run
      ([(0, scenarioBuilder, Faults.never)] ++
        [(1, scenarioBuilder, Faults.never), (0, scenarioBuilder, Faults.never)])).1.Nodup := by
  have hall : (System.fresh 2).allocated := by
    intro id hpres
    obtain ⟨p, hp, hpid⟩ := hpres
    simp only [System.fresh, List.mem_map] at hp
    obtain ⟨t, _, rfl⟩ := hp
    rcases hpid with ⟨r, hr, _⟩ | hmem
    · exact absurd rfl hr
    · cases hmem
  exact ⟨hall, rfl,
    (C7_ids_strictly_increasing (System.fresh 2) [(0, scenarioBuilder, Faults.never)]
      [(1, scenarioBuilder, Faults.never), (0, scenarioBuilder, Faults.never)] hall).2.1⟩

/-- C8. When the zero flag is symbolized (`getRegSymbolicID(ZF)` is an id, not `UNSET`),
the condition of the expression a successful `JnzIRBuilder::imm` produces is
`(= #<id> (_ bv0 1))`, and the expression does not depend on the concrete shadow
of the flag: a processor that differs only in `getFlagValue(ZF)` yields the same
element, hence the same expression text, for the same immediate and next address. -/
theorem C8_symbolized_zf (b : JnzIRBuilder) (f : Faults) (ap : AnalysisProcessor)
    (inst : Inst) (op : Operand) (rest : List Operand)
    (hop : b.operands = op :: rest) (hzf : ap.getRegSymbolicID ID_ZF ≠ UNSET)
    (hok : (b.imm f ap inst).1 = .ok ()) :
    ∃ se : SymbolicElement,
      (b.imm f ap inst).2.2.elements = inst.elements ++ [se] ∧
      se.expression =
        smt2lib.ite ("(= #" ++ Nat.repr (ap.getRegSymbolicID ID_ZF) ++ " (_ bv0 1))")
          (smt2lib.bv op.getValue 64) (smt2lib.bv b.nextAddress 64) ∧
      ∀ v : Nat,
        (b.imm f { ap with
            flagConcreteValues := Function.update ap.flagConcreteValues ID_ZF v }
          inst).2.2.elements = inst.elements ++ [se] := by
  obtain ⟨h1, h2, h3⟩ := (imm_ok_iff b f ap inst).1 hok
  rw [imm_eq_of_quiet b f ap inst h1 h2 h3]
  refine ⟨immElement b ap, rfl, ?_, ?_⟩
  · simp only [immElement, JnzIRBuilder.finalExpr, JnzIRBuilder.zfExpr, hzf, hop,
      REG_SIZE_BIT, List.headD_cons, ne_eq, not_false_eq_true, if_true, smt2lib.equal,
      smt2lib.bvfalse]
    congr 1
    have h : ("(= " : String) ++ "#" = "(= #" := by decide
    have h2 : (" " : String) ++ "(_ bv0 1)" ++ ")" = " (_ bv0 1))" := by decide
    simp only [String.append_assoc] at h2 ⊢
    rw [h2, ← String.append_assoc, h]
  · intro v
    rw [imm_eq_of_quiet b f _ inst h1 h2 h3]
    have hzf2 : ap.regToSymbolicId ID_ZF ≠ UNSET := hzf
    simp [immElement, JnzIRBuilder.finalExpr, JnzIRBuilder.zfExpr,
      AnalysisProcessor.getRegSymbolicID, hzf2]

/-- Witness of C8: the zero flag is symbolized as element 7; the condition reads `#7`. -/
theorem C8_symbolized_zf_witness :
    scenarioBuilder.operands = ⟨.IMM, 0x401010⟩ :: [] ∧
    ({ freshProcessor 0 with
        nextId := 8, regToSymbolicId := Function.update (fun _ => UNSET) ID_ZF 7 } :
      AnalysisProcessor).getRegSymbolicID ID_ZF ≠ UNSET ∧
    (scenarioBuilder.imm Faults.never
        { freshProcessor 0 with
            nextId := 8, regToSymbolicId := Function.update (fun _ => UNSET) ID_ZF 7 }
        emptyInst).1 = .ok () ∧
    (scenarioBuilder.imm Faults.never
        { freshProcessor 0 with
            nextId := 8, regToSymbolicId := Function.update (fun _ => UNSET) ID_ZF 7 }
        emptyInst).2.2.elements.map SymbolicElement.expression
      = ["(ite (= #7 (_ bv0 1)) (_ bv4198416 64) (_ bv4198394 64))"] := by
  have hzf : ({ freshProcessor 0 with
        nextId := 8, regToSymbolicId := Function.update (fun _ => UNSET) ID_ZF 7 } :
      AnalysisProcessor).getRegSymbolicID ID_ZF ≠ UNSET := by decide
  refine ⟨rfl, hzf, rfl, ?_⟩
  obtain ⟨se, hel, hexpr, _⟩ :=
    C8_symbolized_zf scenarioBuilder Faults.never
      { freshProcessor 0 with
          nextId := 8, regToSymbolicId := Function.update (fun _ => UNSET) ID_ZF 7 }
      emptyInst ⟨.IMM, 0x401010⟩ [] rfl hzf rfl
  rw [hel, List.map_append, List.map_cons, hexpr]
  decide

/-- C10. When `process()` is run on a JNZ instruction whose operand kind is register,
memory or none, it fails, returns no instruction, and leaves the whole processor
state (register mappings, next id, path-constraint log, expression count and
concrete shadows) exactly as it was before the call. -/
theorem C10_unsupported_forms_atomic (b : JnzIRBuilder) (f : Faults)
    (ap : AnalysisProcessor)
    (hk : JnzIRBuilder.operandKind b.operands = .REG ∨
      JnzIRBuilder.operandKind b.operands = .MEM ∨
      JnzIRBuilder.operandKind b.operands = .NONE) :
    (∃ e, (b.process f ap).1 = .error e) ∧
    (∀ i : Inst, (b.process f ap).1 ≠ .ok i) ∧
    (b.process f ap).2 = ap := by
  unfold JnzIRBuilder.process JnzIRBuilder.checkSetup JnzIRBuilder.templateMethod
  cases hs : b.needSetup <;> rcases hk with hk | hk | hk <;>
    simp [hk, JnzIRBuilder.reg, JnzIRBuilder.mem, JnzIRBuilder.none, OneOperandTemplate.stop]

/-- Witness of C10: a register operand, on a processor with a non-empty log. -/
theorem C10_unsupported_forms_atomic_witness :
    (JnzIRBuilder.operandKind
        (JnzIRBuilder.mk 0x400ff8 "jnz rax" 0x400ffa [⟨.REG, 0⟩] false).operands = .REG ∨
      JnzIRBuilder.operandKind
        (JnzIRBuilder.mk 0x400ff8 "jnz rax" 0x400ffa [⟨.REG, 0⟩] false).operands = .MEM ∨
      JnzIRBuilder.operandKind
        (JnzIRBuilder.mk 0x400ff8 "jnz rax" 0x400ffa [⟨.REG, 0⟩] false).operands = .NONE) ∧
    ((JnzIRBuilder.mk 0x400ff8 "jnz rax" 0x400ffa [⟨.REG, 0⟩] false).process Faults.never
        { freshProcessor 0 with nextId := 9, pathConstraints := [3, 5] }).2
      = { freshProcessor 0 with nextId := 9, pathConstraints := [3, 5] } :=
  ⟨Or.inl rfl,
    (C10_unsupported_forms_atomic
      (JnzIRBuilder.mk 0x400ff8 "jnz rax" 0x400ffa [⟨.REG, 0⟩] false) Faults.never
      { freshProcessor 0 with nextId := 9, pathConstraints := [3, 5] } (Or.inl rfl)).2.2⟩

/-- C11. The ordering `operator<` on `Register` (comparison by id) is a strict weak
ordering: it is irreflexive and transitive, and incomparability (neither `a < b`
nor `b < a`) is transitive; and it is consistent with `operator==`: `a == b`
implies neither `a < b` nor `b < a`. -/
theorem C11_register_strict_weak_order :
    (∀ a : Register, Register.operatorLt a a = false) ∧
    (∀ a b c : Register, Register.operatorLt a b = true → Register.operatorLt b c = true →
      Register.operatorLt a c = true) ∧
    (∀ a b c : Register,
      (Register.operatorLt a b = false ∧ Register.operatorLt b a = false) →
      (Register.operatorLt b c = false ∧ Register.operatorLt c b = false) →
      (Register.operatorLt a c = false ∧ Register.operatorLt c a = false)) ∧
    (∀ a b : Register, Register.operatorEq a b = true →
      Register.operatorLt a b = false ∧ Register.operatorLt b a = false) := by
  simp only [Register.operatorLt, Register.operatorEq, decide_eq_true_eq, decide_eq_false_iff_not]
  refine ⟨fun a => lt_irrefl _, fun a b c h1 h2 => lt_trans h1 h2, ?_, ?_⟩
  · intro a b c h1 h2
    omega
  · intro a b h
    omega

/-- Witness of C11: two registers with the same id and different concrete values
are equal for `operator==` and incomparable for `operator<`, and ids 1, 2, 3
are ordered transitively. -/
theorem C11_register_strict_weak_order_witness :
    Register.operatorEq ⟨"rax", 1, 1, 0, true⟩ ⟨"rax", 1, 1, 5, false⟩ = true ∧
    (Register.operatorLt ⟨"rax", 1, 1, 0, true⟩ ⟨"rax", 1, 1, 5, false⟩ = false ∧
      Register.operatorLt ⟨"rax", 1, 1, 5, false⟩ ⟨"rax", 1, 1, 0, true⟩ = false) ∧
    Register.operatorLt ⟨"rax", 1, 1, 0, true⟩ ⟨"rbx", 2, 2, 0, true⟩ = true ∧
    Register.operatorLt ⟨"rbx", 2, 2, 0, true⟩ ⟨"rcx", 3, 3, 0, true⟩ = true ∧
    Register.operatorLt ⟨"rax", 1, 1, 0, true⟩ ⟨"rcx", 3, 3, 0, true⟩ = true :=
  ⟨rfl,
    C11_register_strict_weak_order.2.2.2 ⟨"rax", 1, 1, 0, true⟩ ⟨"rax", 1, 1, 5, false⟩ rfl,
    rfl, rfl,
    C11_register_strict_weak_order.2.1 ⟨"rax", 1, 1, 0, true⟩ ⟨"rbx", 2, 2, 0, true⟩
      ⟨"rcx", 3, 3, 0, true⟩ rfl rfl⟩

/-- C12. Branch semantics: when the zero flag is not symbolized, the text a
successful `JnzIRBuilder::imm` attaches reads as a formula of the grammar whose
value, under the standard meaning of bit-vector constants, `=` and `ite`, is the
64-bit vector `imm` (the jump target) when the concrete bit of the flag is 0, and
the 64-bit vector `nextAddress` (the fall-through address) when it is 1, for
every 64-bit `imm` and `nextAddress`. -/
theorem C12_branch_semantics (b : JnzIRBuilder) (f : Faults) (ap : AnalysisProcessor)
    (inst : Inst) (op : Operand) (rest : List Operand)
    (hop : b.operands = op :: rest) (hzf : ap.getRegSymbolicID ID_ZF = UNSET)
    (himm : op.getValue < 2 ^ 64) (hnext : b.nextAddress < 2 ^ 64)
    (hok : (b.imm f ap inst).1 = .ok ()) :
    ∃ (se : SymbolicElement) (e : Formula),
      (b.imm f ap inst).2.2.elements = inst.elements ++ [se] ∧
      parseFormula se.expression = some e ∧
      (ap.getFlagValue ID_ZF = 0 →
        ∀ env, e.eval env = some (.bitvec 64 op.getValue)) ∧
      (ap.getFlagValue ID_ZF = 1 →
        ∀ env, e.eval env = some (.bitvec 64 b.nextAddress)) := by
  rw [imm_eq_of_ok b f ap inst hok]
  refine ⟨immElement b ap, JnzIRBuilder.finalFormula b ap op.getValue, rfl, ?_, ?_, ?_⟩
  · simp only [immElement, hop, List.headD_cons]
    exact parseFormula_finalExpr b ap op.getValue
  · intro hflag env
    simp only [JnzIRBuilder.finalFormula, hzf, hflag, Formula.eval, Value.sort, REG_SIZE_BIT,
      ne_eq, not_true_eq_false, if_false, if_true, decide_True, Nat.mod_eq_of_lt himm,
      Nat.mod_eq_of_lt hnext]
  · intro hflag env
    simp only [JnzIRBuilder.finalFormula, hzf, hflag, Formula.eval, Value.sort, REG_SIZE_BIT,
      ne_eq, not_true_eq_false, if_false, if_true, Nat.mod_eq_of_lt himm,
      Nat.mod_eq_of_lt hnext]
    rfl


/-- Witness of C12: the scenario instruction with the zero flag set to 1 falls
through to `0x400ffa`. -/
theorem C12_branch_semantics_witness :
    scenarioBuilder.operands = ⟨.IMM, 0x401010⟩ :: [] ∧
    ({ freshProcessor 0 with flagConcreteValues := fun _ => 1 } :
      AnalysisProcessor).getRegSymbolicID ID_ZF = UNSET ∧
    (Operand.mk .IMM 0x401010).getValue < 2 ^ 64 ∧
    scenarioBuilder.nextAddress < 2 ^ 64 ∧
    (scenarioBuilder.imm Faults.never
      { freshProcessor 0 with flagConcreteValues := fun _ => 1 } emptyInst).1 = .ok () ∧
    ∃ (se : SymbolicElement) (e : Formula),
      (scenarioBuilder.imm Faults.never
        { freshProcessor 0 with flagConcreteValues := fun _ => 1 } emptyInst).2.2.elements
        = emptyInst.elements ++ [se] ∧
      parseFormula se.expression = some e ∧
      (({ freshProcessor 0 with flagConcreteValues := fun _ => 1 } :
          AnalysisProcessor).getFlagValue ID_ZF = 0 →
        ∀ env, e.eval env = some (.bitvec 64 (Operand.mk .IMM 0x401010).getValue)) ∧
      (({ freshProcessor 0 with flagConcreteValues := fun _ => 1 } :
          AnalysisProcessor).getFlagValue ID_ZF = 1 →
        ∀ env, e.eval env = some (.bitvec 64 scenarioBuilder.nextAddress)) :=
  ⟨rfl, rfl, by decide, by decide, rfl,
    C12_branch_semantics scenarioBuilder Faults.never
      { freshProcessor 0 with flagConcreteValues := fun _ => 1 } emptyInst
      ⟨.IMM, 0x401010⟩ [] rfl rfl (by decide) (by decide) rfl⟩

/-- C13. A successful `JnzIRBuilder::imm` changes the register-to-symbolic-id mapping
only at `RIP`: for every register or flag other than `RIP`, in particular `ZF`,
`getRegSymbolicID` is the same after the call as before, and `getFlagValue` of
every flag is unchanged. -/
theorem C13_imm_frame (b : JnzIRBuilder) (f : Faults) (ap : AnalysisProcessor)
    (inst : Inst) (op : Operand) (rest : List Operand)
    (_hop : b.operands = op :: rest) (hok : (b.imm f ap inst).1 = .ok ()) :
    (∀ r : RegID, r ≠ ID_RIP →
      (b.imm f ap inst).2.1.getRegSymbolicID r = ap.getRegSymbolicID r) ∧
    (b.imm f ap inst).2.1.getRegSymbolicID ID_ZF = ap.getRegSymbolicID ID_ZF ∧
    (∀ fl : RegID, (b.imm f ap inst).2.1.getFlagValue fl = ap.getFlagValue fl) := by
  rw [imm_eq_of_ok b f ap inst hok]
  refine ⟨?_, ?_, fun fl => rfl⟩
  · intro r hr
    simp [immProcessor, AnalysisProcessor.getRegSymbolicID, Function.update_noteq hr]
  · simp [immProcessor, AnalysisProcessor.getRegSymbolicID]

/-- Witness of C13: the zero flag is symbolized as element 7 and stays so. -/
theorem C13_imm_frame_witness :
    scenarioBuilder.operands = ⟨.IMM, 0x401010⟩ :: [] ∧
    (scenarioBuilder.imm Faults.never
        { freshProcessor 0 with
            nextId := 8, regToSymbolicId := Function.update (fun _ => UNSET) ID_ZF 7 }
        emptyInst).1 = .ok () ∧
    (scenarioBuilder.imm Faults.never
        { freshProcessor 0 with
            nextId := 8, regToSymbolicId := Function.update (fun _ => UNSET) ID_ZF 7 }
        emptyInst).2.1.getRegSymbolicID ID_ZF = 7 :=
  ⟨rfl, rfl,
    (C13_imm_frame scenarioBuilder Faults.never
      { freshProcessor 0 with
          nextId := 8, regToSymbolicId := Function.update (fun _ => UNSET) ID_ZF 7 }
      emptyInst ⟨.IMM, 0x401010⟩ [] rfl rfl).2.1⟩

/-- C14. Acyclicity: the predicate "every id stored in the register-to-symbolic-id
mapping and every id in the path-constraint log is strictly smaller than the next
id to allocate" is preserved by `JnzIRBuilder::imm` (whether it succeeds or
raises), and under it every symbolic reference `#k` that occurs in the expression
of the element a successful call creates is the id the zero flag was mapped to
and satisfies `k <` the id of the new element. -/
theorem C14_acyclic (b : JnzIRBuilder) (f : Faults) (ap : AnalysisProcessor)
    (inst : Inst) (op : Operand) (rest : List Operand)
    (hop : b.operands = op :: rest) (hinv : ap.idsBelowNext) :
    (b.imm f ap inst).2.1.idsBelowNext ∧
    ((b.imm f ap inst).1 = .ok () →
      ∃ (se : SymbolicElement) (e : Formula),
        (b.imm f ap inst).2.2.elements = inst.elements ++ [se] ∧
        parseFormula se.expression = some e ∧
        ∀ k ∈ e.refs, k = ap.getRegSymbolicID ID_ZF ∧ k < se.getID) := by
  constructor
  · rcases imm_effect b f ap inst with ⟨hn, hreg, hlog⟩ | ⟨hn, hreg, hlog⟩
    · obtain ⟨hr, hl⟩ := hinv
      constructor
      · intro r hne
        simp only [AnalysisProcessor.getRegSymbolicID, hreg, hn] at hne ⊢
        exact hr r hne
      · intro k hk
        rw [hlog] at hk
        rw [hn]
        exact hl k hk
    · exact idsBelowNext_step ap _ hinv hn hreg hlog
  · intro hok
    rw [imm_eq_of_ok b f ap inst hok]
    refine ⟨immElement b ap, JnzIRBuilder.finalFormula b ap op.getValue, rfl, ?_, ?_⟩
    · simp only [immElement, hop, List.headD_cons]
      exact parseFormula_finalExpr b ap op.getValue
    · intro k hk
      obtain ⟨hk1, hk2⟩ := finalFormula_refs b ap op.getValue k hk
      refine ⟨hk1, ?_⟩
      rw [hk1]
      exact hinv.1 ID_ZF hk2

/-- Witness of C14: the zero flag is symbolized as element 7, the log holds 3 and 5,
the next id is 8; the new element 8 refers to `#7` only. -/
theorem C14_acyclic_witness :
    scenarioBuilder.operands = ⟨.IMM, 0x401010⟩ :: [] ∧
    ({ freshProcessor 0 with
        nextId := 8, pathConstraints := [3, 5],
        regToSymbolicId := Function.update (fun _ => UNSET) ID_ZF 7 } :
      AnalysisProcessor).idsBelowNext ∧
    (scenarioBuilder.imm Faults.never
      { freshProcessor 0 with
          nextId := 8, pathConstraints := [3, 5],
          regToSymbolicId := Function.update (fun _ => UNSET) ID_ZF 7 }
      emptyInst).2.1.idsBelowNext := by
  have hinv : ({ freshProcessor 0 with
        nextId := 8, pathConstraints := [3, 5],
        regToSymbolicId := Function.update (fun _ => UNSET) ID_ZF 7 } :
      AnalysisProcessor).idsBelowNext := by
    constructor
    · intro r hne
      simp only [AnalysisProcessor.getRegSymbolicID] at hne ⊢
      by_cases hr : r = ID_ZF
      · subst hr
        simp [Function.update_same]
      · rw [Function.update_noteq hr] at hne
        exact absurd rfl hne
    · intro k hk
      simp only [List.mem_cons, List.mem_singleton, List.not_mem_nil, or_false] at hk
      rcases hk with hk | hk <;> simp [hk]
  exact ⟨rfl, hinv,
    (C14_acyclic scenarioBuilder Faults.never _ emptyInst ⟨.IMM, 0x401010⟩ [] rfl hinv).1⟩

/-- C15. A successful `process()` on a JNZ instruction with an immediate operand
returns an instruction carrying the processor's thread id, the builder's address
and disassembly text, and exactly one element, the one created for `RIP` (fresh
id, location name `RIP`, and `RIP` is mapped to it); the expression count grows
by the number of elements of the returned instruction, that is by 1; and
`incNumberOfExpressions` changes neither the register mappings nor the
path-constraint log. -/
theorem C15_process_success (b : JnzIRBuilder) (f : Faults) (ap : AnalysisProcessor)
    (i : Inst) (hk : JnzIRBuilder.operandKind b.operands = .IMM)
    (hok : (b.process f ap).1 = .ok i) :
    i.threadId = ap.getThreadID ∧ i.address = b.address ∧ i.disassemblyText = b.disas ∧
    (∃ se : SymbolicElement, i.elements = [se] ∧ se.definedLocationName = "RIP" ∧
      se.getID = ap.nextId ∧ (b.process f ap).2.getRegSymbolicID ID_RIP = se.getID) ∧
    i.numberOfElements = 1 ∧
    (b.process f ap).2.expressionCount = ap.expressionCount + i.numberOfElements ∧
    (∀ (g : Faults) (p : AnalysisProcessor) (n : Nat),
      (p.incNumberOfExpressions g n).2.regToSymbolicId = p.regToSymbolicId ∧
      (p.incNumberOfExpressions g n).2.pathConstraints = p.pathConstraints) := by
  have hinc : ∀ (g : Faults) (p : AnalysisProcessor) (n : Nat),
      (p.incNumberOfExpressions g n).2.regToSymbolicId = p.regToSymbolicId ∧
      (p.incNumberOfExpressions g n).2.pathConstraints = p.pathConstraints := by
    intro g p n
    unfold AnalysisProcessor.incNumberOfExpressions
    cases g.raises .incNumberOfExpressions <;> simp
  revert hok
  unfold JnzIRBuilder.process JnzIRBuilder.checkSetup JnzIRBuilder.templateMethod
    JnzIRBuilder.imm AnalysisProcessor.createRegSE AnalysisProcessor.addPathConstraint
    Inst.addElement AnalysisProcessor.incNumberOfExpressions
  cases hs : b.needSetup <;> cases h1 : f.raises .createRegSE <;>
    cases h2 : f.raises .addPathConstraint <;> cases h3 : f.raises .addElement <;>
    cases h4 : f.raises .incNumberOfExpressions <;>
    simp [hk, SymbolicElement.getID, Inst.numberOfElements,
      AnalysisProcessor.getRegSymbolicID, AnalysisProcessor.getThreadID]
  intro h
  subst h
  simp only [List.length_singleton, and_self, true_and]
  exact ⟨⟨_, rfl, rfl, rfl, rfl⟩, hinc⟩


/-- Witness of C15: the scenario instruction on thread 3 with 10 expressions counted. -/
theorem C15_process_success_witness :
    JnzIRBuilder.operandKind scenarioBuilder.operands = .IMM ∧
    (scenarioBuilder.process Faults.never
        { freshProcessor 3 with nextId := 9, expressionCount := 10 }).1
      = .ok ⟨3, 0x400ff8, "jnz 0x401010",
          [⟨9, "(ite (= (_ bv0 1) (_ bv0 1)) (_ bv4198416 64) (_ bv4198394 64))", "RIP"⟩]⟩ ∧
    (scenarioBuilder.process Faults.never
        { freshProcessor 3 with nextId := 9, expressionCount := 10 }).2.expressionCount
      = 11 := by
  have hok : (scenarioBuilder.process Faults.never
        { freshProcessor 3 with nextId := 9, expressionCount := 10 }).1
      = .ok ⟨3, 0x400ff8, "jnz 0x401010",
          [⟨9, "(ite (= (_ bv0 1) (_ bv0 1)) (_ bv4198416 64) (_ bv4198394 64))", "RIP"⟩]⟩ := rfl
  exact ⟨rfl, hok,
    (C15_process_success scenarioBuilder Faults.never
      { freshProcessor 3 with nextId := 9, expressionCount := 10 } _ rfl hok).2.2.2.2.2.1⟩

/-- C16. Well-sortedness: when the zero flag is not symbolized and its concrete value
is 0 or 1, the text a successful `JnzIRBuilder::imm` attaches reads as
`ite (= c1 c2) t e` where `c1` and `c2` are 1-bit constants whose values fit in
1 bit, so the condition has sort boolean, and `t` and `e` are bit-vector
constants of the same width 64 whose values (a 64-bit immediate and a 64-bit
next address) fit in 64 bits; the whole formula has the sort of 64-bit vectors. -/
theorem C16_well_sorted (b : JnzIRBuilder) (f : Faults) (ap : AnalysisProcessor)
    (inst : Inst) (op : Operand) (rest : List Operand)
    (hop : b.operands = op :: rest) (hzf : ap.getRegSymbolicID ID_ZF = UNSET)
    (hflag : ap.getFlagValue ID_ZF = 0 ∨ ap.getFlagValue ID_ZF = 1)
    (himm : op.getValue < 2 ^ 64) (hnext : b.nextAddress < 2 ^ 64)
    (hok : (b.imm f ap inst).1 = .ok ()) :
    ∃ se : SymbolicElement,
      (b.imm f ap inst).2.2.elements = inst.elements ++ [se] ∧
      parseFormula se.expression =
        some (.ite (.equal (.bv (ap.getFlagValue ID_ZF) 1) (.bv 0 1))
          (.bv op.getValue 64) (.bv b.nextAddress 64)) ∧
      (ap.getFlagValue ID_ZF < 2 ^ 1 ∧ 0 < 2 ^ 1 ∧
        op.getValue < 2 ^ 64 ∧ b.nextAddress < 2 ^ 64) ∧
      ∀ env,
        Formula.sortOf env (.bv (ap.getFlagValue ID_ZF) 1) = some (.bitvec 1) ∧
        Formula.sortOf env (.bv 0 1) = some (.bitvec 1) ∧
        Formula.sortOf env (.equal (.bv (ap.getFlagValue ID_ZF) 1) (.bv 0 1)) = some .bool ∧
        Formula.sortOf env (.bv op.getValue 64) = some (.bitvec 64) ∧
        Formula.sortOf env (.bv b.nextAddress 64) = some (.bitvec 64) ∧
        Formula.sortOf env
          (.ite (.equal (.bv (ap.getFlagValue ID_ZF) 1) (.bv 0 1))
            (.bv op.getValue 64) (.bv b.nextAddress 64)) = some (.bitvec 64) := by
  have hfl : ap.getFlagValue ID_ZF < 2 ^ 1 := by
    rcases hflag with h | h <;> rw [h] <;> decide
  rw [imm_eq_of_ok b f ap inst hok]
  refine ⟨immElement b ap, rfl, ?_, ⟨hfl, by decide, himm, hnext⟩, ?_⟩
  · simp only [immElement, hop, List.headD_cons]
    rw [parseFormula_finalExpr b ap op.getValue]
    simp only [JnzIRBuilder.finalFormula, hzf, ne_eq, not_true_eq_false, if_false, REG_SIZE_BIT]
  · intro env
    have h0 : (0 : Nat) < 2 ^ 1 := by decide
    have p1 : (0 : Nat) < 1 := by decide
    have p64 : (0 : Nat) < 64 := by decide
    simp only [Formula.sortOf, hfl, h0, himm, hnext, p1, p64, and_self, if_true]

/-- Witness of C16: the section 8 scenario (flag 0, target `0x401010`, next
`0x400ffa`). -/
theorem C16_well_sorted_witness :
    scenarioBuilder.operands = ⟨.IMM, 0x401010⟩ :: [] ∧
    (freshProcessor 0).getRegSymbolicID ID_ZF = UNSET ∧
    ((freshProcessor 0).getFlagValue ID_ZF = 0 ∨ (freshProcessor 0).getFlagValue ID_ZF = 1) ∧
    (Operand.mk .IMM 0x401010).getValue < 2 ^ 64 ∧
    scenarioBuilder.nextAddress < 2 ^ 64 ∧
    (scenarioBuilder.imm Faults.never (freshProcessor 0) emptyInst).1 = .ok () ∧
    ∃ se : SymbolicElement,
      (scenarioBuilder.imm Faults.never (freshProcessor 0) emptyInst).2.2.elements
        = emptyInst.elements ++ [se] ∧
      parseFormula se.expression =
        some (.ite (.equal (.bv 0 1) (.bv 0 1)) (.bv 0x401010 64) (.bv 0x400ffa 64)) := by
  obtain ⟨se, hel, hparse, _⟩ :=
    C16_well_sorted scenarioBuilder Faults.never (freshProcessor 0) emptyInst
      ⟨.IMM, 0x401010⟩ [] rfl rfl (Or.inl rfl) (by decide) (by decide) rfl
  exact ⟨rfl, rfl, Or.inl rfl, by decide, by decide, rfl, se, hel, hparse⟩

end Triton
